import Mathlib

/-!
# fastPort broker — shallow embedding and verification

This file embeds the core of the fastPort publish/subscribe broker
(`src/messageCache.js`, the `SessionManager` class, `src/wsHandler.js`,
the admin endpoints of `src/server.js`, and the `MemoryStore` storage
back-end) as executable Lean definitions, and proves or refutes the
frozen specification claims against them.

Conventions of the embedding:
* JavaScript objects / `Map`s become association lists with first-match
  lookup and in-place replacement on update.
* `Date.now()` becomes an explicit `now : Nat` field of the broker state.
* `setTimeout` becomes an entry in a `pending` timer table with a fresh
  numeric handle; `clearTimeout` removes the entry by handle; a timer
  firing is an explicit event that consumes the entry and runs the
  retry callback at the timer's deadline.
* WebSocket sends become records appended to a `sent` log, stamped with
  the sending time and the destination connection id.
* `async`/`await` sequences inside one handler run atomically, matching
  the per-message serialization the code relies on.
-/

namespace FastPort

/-- JS `a || d` for an optional numeric field: `0`, `null` and `undefined`
are falsy and fall back to the default `d`. -/
def jsOr (o : Option Nat) (d : Nat) : Nat :=
  match o with
  | some v => if v = 0 then d else v
  | none => d

/-- JS `a || null` for an optional numeric field: falsy values become null. -/
def jsOrNull (o : Option Nat) : Option Nat :=
  match o with
  | some v => if v = 0 then none else some v
  | none => none

/-- JS `s || null` for an optional string field: the empty string is falsy. -/
def jsOrStr (o : Option String) : Option String :=
  match o with
  | some s => if s = "" then none else some s
  | none => none

/-- First-match association-list lookup (JS object property read / `Map.get`). -/
def alookup {κ α : Type} [BEq κ] (l : List (κ × α)) (k : κ) : Option α :=
  match l.find? (fun p => p.1 == k) with
  | some p => some p.2
  | none => none

/-- Association-list update (JS property write / `Map.set`): replaces the first
binding of `k` in place, appends a new binding if `k` is absent. -/
def aset {κ α : Type} [BEq κ] (l : List (κ × α)) (k : κ) (v : α) : List (κ × α) :=
  match l with
  | [] => [(k, v)]
  | p :: rest => if p.1 == k then (k, v) :: rest else p :: aset rest k v

/-- Association-list deletion (JS `delete obj[k]` / `Map.delete`). -/
def aerase {κ α : Type} [BEq κ] (l : List (κ × α)) (k : κ) : List (κ × α) :=
  l.filter (fun p => p.1 != k)

/-- A session record as created by `SessionManager.createSession` and stored by
the storage provider.  The FCM credential blob is opaque to the broker core and
is reduced to the `fcmEnabled` flag that the publish pipeline reads. -/
structure Session where
  sessionName : String
  password : String
  secretKey : String
  retryInterval : Nat
  maxRetryLimit : Nat
  messageExpiryTime : Option Nat
  sessionExpiry : Option Nat
  suspended : Bool
  fcmEnabled : Bool
  deriving Repr, DecidableEq

/-- A cached message as built by `MessageCache.cacheMessage` (field `type` is
rendered `mtype`).  `maxRetryLimit` and `retryInterval` are `Option` because
`scheduleRetry` guards them with `!== undefined` resp. `||`. -/
structure CachedMessage where
  messageId : String
  sessionName : String
  topic : String
  data : String
  hash : String
  mtype : String
  timestamp : Nat
  retryCount : Nat
  expiryTime : Option Nat
  maxRetryLimit : Option Nat
  retryInterval : Option Nat
  deriving Repr, DecidableEq

/-- An armed `setTimeout` handle created by `MessageCache.scheduleRetry`:
its callback is `retryCallback(sessionName, topic, messageId)`. -/
structure PendingTimer where
  id : Nat
  due : Nat
  sessionName : String
  topic : String
  messageId : String
  deriving Repr, DecidableEq

/-- Frames the broker sends to clients (`ws.send` payloads).  `ackReceived` is
part of the documented protocol vocabulary; whether the broker ever emits it is
settled by the theorems below. -/
inductive Frame where
  | initResponse (success : Bool) (sessionName : Option String) (error : Option String)
  | subscribeResponse (topic : String)
  | unsubscribeResponse (topic : String)
  | publishResponse (success : Bool) (messageId : Option String)
      (deliveredTo : Option Nat) (error : Option String)
  | message (topic data hash : String) (timestamp : Nat) (messageId : String)
      (retry : Option Nat)
  | ackReceived (messageId : String)
  | fileSignal (signal topic fileId : String)
  | binaryData (typeByte : Nat) (fileId : String) (payloadLen : Nat)
  | errorMsg (error : String)
  | fcmTokenResponse (success : Bool) (error : Option String)
  deriving Repr, DecidableEq

/-- One `ws.send` call: when it happened, to which connection, which frame. -/
structure SentRec where
  time : Nat
  dest : Nat
  frame : Frame
  deriving Repr, DecidableEq

/-- Per-connection state of `handleWebSocketConnection`: the `clientSession`
closure variable, `ws.userId`, `ws.readyState`, the `clientSubscriptions` set
and the `ws.activeUploads` map. -/
structure Conn where
  clientSession : Option String
  userId : Option String
  readyState : Nat
  clientSubscriptions : List String
  activeUploads : List (String × String)
  deriving Repr, DecidableEq

/-- An incoming binary frame, abstracting the wire layout
`[typeByte 1B][fileId 36B][chunkIndex 4B][payload]`: total byte length,
first byte, the fileId string and the payload size. -/
structure BinMsg where
  length : Nat
  typeByte : Nat
  fileId : String
  payloadLen : Nat
  deriving Repr, DecidableEq

/-- The whole broker state: `MemoryStore` (`sessions`, `messages`,
`deviceTokens`), `MessageCache.retryTimers` plus the event-loop timer table,
the in-memory subscriber and user-connection indexes of `SessionManager`,
the connection table, the clock, the send log and the emitted FCM pushes. -/
structure BrokerState where
  sessions : List (String × Session)
  messages : List (String × CachedMessage)
  retryTimers : List (String × Nat)
  pending : List PendingTimer
  nextTimerId : Nat
  activeSubscribers : List (String × List (String × List Nat))
  userConnections : List (String × List (String × Nat))
  conns : List (Nat × Conn)
  deviceTokens : List (String × String × String)
  now : Nat
  sent : List SentRec
  fcmPushes : List (String × String × String)
  deriving Repr, DecidableEq

/-- Append one outbound frame to the send log (`ws.send`). -/
def sendTo (st : BrokerState) (dest : Nat) (fr : Frame) : BrokerState :=
  { st with sent := st.sent ++ [⟨st.now, dest, fr⟩] }

/-- Send the same frame to a list of destinations, in list order. -/
def sendAll (st : BrokerState) (dests : List Nat) (fr : Frame) : BrokerState :=
  { st with sent := st.sent ++ dests.map (fun d => ⟨st.now, d, fr⟩) }

def getConn (st : BrokerState) (c : Nat) : Option Conn :=
  alookup st.conns c

def setConn (st : BrokerState) (c : Nat) (conn : Conn) : BrokerState :=
  { st with conns := aset st.conns c conn }

/-- `subscriber.readyState` (1 = OPEN). -/
def connReadyState (st : BrokerState) (c : Nat) : Nat :=
  match getConn st c with
  | some cn => cn.readyState
  | none => 0

/-- The `clientSession` of a connection, if the connection exists. -/
def connSession (st : BrokerState) (c : Nat) : Option String :=
  match getConn st c with
  | some cn => cn.clientSession
  | none => none

/-- `SessionManager.getSubscribers`:
`this.activeSubscribers[sessionName]?.[topic] || []`. -/
def getSubscribers (st : BrokerState) (sessionName topic : String) : List Nat :=
  match alookup st.activeSubscribers sessionName with
  | some topics => (alookup topics topic).getD []
  | none => []

/-- `SessionManager.subscribe`: create missing levels, push the connection
only if it is not already in the list. -/
def subscribe (st : BrokerState) (sessionName topic : String) (ws : Nat) : BrokerState :=
  let topics := (alookup st.activeSubscribers sessionName).getD []
  let subs := (alookup topics topic).getD []
  let subs' := if ws ∈ subs then subs else subs ++ [ws]
  let idx := aset st.activeSubscribers sessionName (aset topics topic subs')
  { st with activeSubscribers := idx }

/-- `SessionManager.unsubscribe`: filter the connection out of the topic list. -/
def unsubscribe (st : BrokerState) (sessionName topic : String) (ws : Nat) : BrokerState :=
  match alookup st.activeSubscribers sessionName with
  | none => st
  | some topics =>
    match alookup topics topic with
    | none => st
    | some subs =>
      let idx := aset st.activeSubscribers sessionName
        (aset topics topic (subs.filter (fun c => c != ws)))
      { st with activeSubscribers := idx }

/-- `SessionManager.registerUserConnection`. -/
def registerUserConnection (st : BrokerState) (sessionName userId : String) (ws : Nat) :
    BrokerState :=
  let users := (alookup st.userConnections sessionName).getD []
  { st with userConnections := aset st.userConnections sessionName (aset users userId ws) }

/-- `SessionManager.unregisterUserConnection`. -/
def unregisterUserConnection (st : BrokerState) (sessionName userId : String) : BrokerState :=
  match alookup st.userConnections sessionName with
  | none => st
  | some users =>
    { st with userConnections := aset st.userConnections sessionName (aerase users userId) }

/-- `SessionManager.isUserOnline`: the tracked socket exists and is OPEN. -/
def isUserOnline (st : BrokerState) (sessionName userId : String) : Bool :=
  match alookup st.userConnections sessionName with
  | none => false
  | some users =>
    match alookup users userId with
    | none => false
    | some ws => connReadyState st ws == 1

/-- Arguments of `SessionManager.createSession`; optional numeric fields are
`none` when the caller omits them. -/
structure CreateSessionArgs where
  sessionName : String
  password : String
  retryInterval : Option Nat
  maxRetryLimit : Option Nat
  messageExpiryTime : Option Nat
  sessionExpiry : Option Nat
  fcmEnabled : Bool
  deriving Repr, DecidableEq

/-- The success payload of `createSession`. -/
structure CreateSessionResult where
  sessionName : String
  password : String
  secretKey : String
  deriving Repr, DecidableEq

/-- `SessionManager.createSession`.  `freshKey` stands for the generated
`crypto.randomBytes(32).toString('hex')` value.  Note the `||` defaulting on
the numeric options. -/
def createSession (st : BrokerState) (args : CreateSessionArgs) (freshKey : String) :
    Except String (BrokerState × CreateSessionResult) :=
  if args.sessionName = "" ∨ args.password = "" then
    .error "sessionName and password are required"
  else
    match alookup st.sessions args.sessionName with
    | some _ => .error "Session already exists"
    | none =>
      let session : Session :=
        { sessionName := args.sessionName
          password := args.password
          secretKey := freshKey
          retryInterval := jsOr args.retryInterval 5000
          maxRetryLimit := jsOr args.maxRetryLimit 100
          messageExpiryTime := jsOrNull args.messageExpiryTime
          sessionExpiry := jsOrNull args.sessionExpiry
          suspended := false
          fcmEnabled := args.fcmEnabled }
      let st' :=
        { st with
            sessions := aset st.sessions args.sessionName session,
            activeSubscribers := aset st.activeSubscribers args.sessionName [] }
      .ok (st', ⟨args.sessionName, args.password, freshKey⟩)

/-- `SessionManager.dropSession`: authorize, close every subscribed OPEN
connection of that session, drop the in-memory subscriber map, delete the
session from storage.  A missing session is an error. -/
def dropSession (st : BrokerState) (sessionName password secretKey : String) :
    Except String BrokerState :=
  match alookup st.sessions sessionName with
  | none => .error "Session not found"
  | some session =>
    if session.password ≠ password ∨ session.secretKey ≠ secretKey then
      .error "Invalid credentials"
    else
      let st' :=
        match alookup st.activeSubscribers sessionName with
        | none => st
        | some topics =>
          let allSubs := (topics.map Prod.snd).flatten
          let closed :=
            { st with conns := st.conns.map (fun p : Nat × Conn =>
                if p.1 ∈ allSubs ∧ p.2.readyState = 1 then
                  (p.1, { p.2 with readyState := 2 })
                else p) }
          { closed with activeSubscribers := aerase closed.activeSubscribers sessionName }
      .ok { st' with sessions := aerase st'.sessions sessionName }

/-- `SessionManager.suspendSession`: authorize, then patch `suspended`. -/
def suspendSession (st : BrokerState) (sessionName password secretKey : String)
    (suspend : Bool) : Except String (BrokerState × Bool) :=
  match alookup st.sessions sessionName with
  | none => .error "Session not found"
  | some session =>
    if session.password ≠ password ∨ session.secretKey ≠ secretKey then
      .error "Invalid credentials"
    else
      let ss := aset st.sessions sessionName { session with suspended := suspend }
      .ok ({ st with sessions := ss }, suspend)

/-- Result of `SessionManager.validateSession`. -/
inductive ValidateResult where
  | valid (session : Session)
  | invalid (error : String)
  deriving Repr, DecidableEq

/-- `SessionManager.validateSession`. -/
def validateSession (st : BrokerState) (sessionName password : String) : ValidateResult :=
  match alookup st.sessions sessionName with
  | none => .invalid "Session not found"
  | some session =>
    if session.password ≠ password then .invalid "Invalid password"
    else if session.suspended then .invalid "Session is suspended"
    else .valid session

/-- The timer map key `sessionName:topic:messageId` of `MessageCache`. -/
def timerKey (sessionName topic messageId : String) : String :=
  sessionName ++ ":" ++ topic ++ ":" ++ messageId

/-- The `messageData` object `handlePublish` hands to `cacheMessage`. -/
structure MessageData where
  data : String
  hash : String
  timestamp : Nat
  topic : String
  mtype : String
  deriving Repr, DecidableEq

/-- `MessageCache.cacheMessage`: build the cache item (the client timestamp in
`messageData` is overridden by `timestamp: Date.now()`; `expiryTime` uses a JS
truthiness test on `session.messageExpiryTime`) and upsert it by `messageId`. -/
def cacheMessage (st : BrokerState) (sessionName topic messageId : String)
    (md : MessageData) (session : Session) : BrokerState :=
  let cacheItem : CachedMessage :=
    { messageId := messageId
      sessionName := sessionName
      topic := topic
      data := md.data
      hash := md.hash
      mtype := md.mtype
      timestamp := st.now
      retryCount := 0
      expiryTime :=
        match session.messageExpiryTime with
        | some t => if t = 0 then none else some (st.now + t)
        | none => none
      maxRetryLimit := some session.maxRetryLimit
      retryInterval := some session.retryInterval }
  { st with messages := aset st.messages messageId cacheItem }

/-- `MessageCache.removeMessage`: clear the timer tracked under the key (if
any), drop the key, remove the message from storage. -/
def removeMessage (st : BrokerState) (sessionName topic messageId : String) : BrokerState :=
  let key := timerKey sessionName topic messageId
  let st' :=
    match alookup st.retryTimers key with
    | some tid =>
      { st with
          pending := st.pending.filter (fun t => t.id != tid),
          retryTimers := aerase st.retryTimers key }
    | none => st
  { st' with messages := aerase st'.messages messageId }

/-- The JS-truthy expiry test of `scheduleRetry`:
`message.expiryTime && Date.now() > message.expiryTime`. -/
def expiryHit (now : Nat) (expiryTime : Option Nat) : Bool :=
  match expiryTime with
  | some e => e != 0 && decide (e < now)
  | none => false

/-- `MessageCache.scheduleRetry`: no-op when the message is gone; remove on
expiry or on reaching the retry ceiling; otherwise bump `retryCount`, persist,
and arm a fresh timer — overwriting `retryTimers[timerKey]` WITHOUT clearing a
previously tracked handle, exactly as the source does. -/
def scheduleRetry (st : BrokerState) (sessionName topic messageId : String)
    (session : Session) : BrokerState :=
  match alookup st.messages messageId with
  | none => st
  | some message =>
    if expiryHit st.now message.expiryTime then
      removeMessage st sessionName topic messageId
    else
      let limit :=
        match message.maxRetryLimit with
        | some l => l
        | none => session.maxRetryLimit
      if message.retryCount ≥ limit then
        removeMessage st sessionName topic messageId
      else
        let bumped := { message with retryCount := message.retryCount + 1 }
        let st' := { st with messages := aset st.messages messageId bumped }
        let interval := jsOr message.retryInterval session.retryInterval
        { st' with
            pending := st'.pending ++
              [⟨st'.nextTimerId, st'.now + interval, sessionName, topic, messageId⟩],
            nextTimerId := st'.nextTimerId + 1,
            retryTimers := aset st'.retryTimers (timerKey sessionName topic messageId)
              st'.nextTimerId }

/-- `MessageCache.clearSession`: cancel every tracked timer whose key starts
with `sessionName:`; cached messages are left in storage (the source skips the
storage cleanup). -/
def clearSession (st : BrokerState) (sessionName : String) : BrokerState :=
  let pfx := sessionName ++ ":"
  let cleared := (st.retryTimers.filter (fun p => p.1.startsWith pfx)).map Prod.snd
  { st with
      pending := st.pending.filter (fun t => !cleared.contains t.id),
      retryTimers := st.retryTimers.filter (fun p => !p.1.startsWith pfx) }

/-- `handleInit` of `wsHandler.js`. -/
def handleInit (st : BrokerState) (self : Nat) (sessionName password : String)
    (userId : Option String) : BrokerState :=
  match getConn st self with
  | none => st
  | some conn =>
    match validateSession st sessionName password with
    | .invalid err => sendTo st self (.initResponse false none (some err))
    | .valid _ =>
      let uid := jsOrStr userId
      let st' := setConn st self
        { conn with clientSession := some sessionName, userId := uid }
      let st'' :=
        match uid with
        | some u => registerUserConnection st' sessionName u self
        | none => st'
      sendTo st'' self (.initResponse true (some sessionName) none)

/-- `handleSubscribe` of `wsHandler.js`. -/
def handleSubscribe (st : BrokerState) (self : Nat) (topic : String) : BrokerState :=
  match getConn st self with
  | none => st
  | some conn =>
    match conn.clientSession with
    | none => sendTo st self (.errorMsg "Not initialized")
    | some sess =>
      let st' := subscribe st sess topic self
      let st'' := setConn st' self
        { conn with clientSubscriptions :=
            if topic ∈ conn.clientSubscriptions then conn.clientSubscriptions
            else conn.clientSubscriptions ++ [topic] }
      sendTo st'' self (.subscribeResponse topic)

/-- `handleUnsubscribe` of `wsHandler.js`. -/
def handleUnsubscribe (st : BrokerState) (self : Nat) (topic : String) : BrokerState :=
  match getConn st self with
  | none => st
  | some conn =>
    match conn.clientSession with
    | none => sendTo st self (.errorMsg "Not initialized")
    | some sess =>
      let st' := unsubscribe st sess topic self
      let st'' := setConn st' self
        { conn with clientSubscriptions :=
            conn.clientSubscriptions.filter (fun t => t != topic) }
      sendTo st'' self (.unsubscribeResponse topic)

/-- `handleBinaryMessage` of `wsHandler.js`: every rejection path (no session,
short frame, wrong type byte, unmapped fileId) drops the chunk silently. -/
def handleBinaryMessage (st : BrokerState) (self : Nat) (b : BinMsg) : BrokerState :=
  match getConn st self with
  | none => st
  | some conn =>
    match conn.clientSession with
    | none => st
    | some sess =>
      if b.length < 41 then st
      else if b.typeByte ≠ 2 then st
      else
        match alookup conn.activeUploads b.fileId with
        | none => st
        | some topic =>
          let subs := getSubscribers st sess topic
          let dests := subs.filter (fun c => c != self && connReadyState st c == 1)
          sendAll st dests (.binaryData b.typeByte b.fileId b.payloadLen)

/-- `handleFileSignal` of `wsHandler.js` (for `init_file` / `end_file`). -/
def handleFileSignal (st : BrokerState) (self : Nat) (signal topic fileId : String) :
    BrokerState :=
  match getConn st self with
  | none => st
  | some conn =>
    match conn.clientSession with
    | none => sendTo st self (.errorMsg "Not initialized")
    | some sess =>
      match alookup st.sessions sess with
      | none => sendTo st self (.errorMsg "Session Invalid or Suspended")
      | some session =>
        if session.suspended then
          sendTo st self (.errorMsg "Session Invalid or Suspended")
        else if topic = "" ∨ fileId = "" then
          sendTo st self (.errorMsg "Missing topic or fileId")
        else
          let st' :=
            if signal = "init_file" then
              setConn st self
                { conn with activeUploads := aset conn.activeUploads fileId topic }
            else if signal = "end_file" then
              setConn st self
                { conn with activeUploads := aerase conn.activeUploads fileId }
            else st
          let subs := getSubscribers st' sess topic
          let dests := subs.filter (fun c => c != self && connReadyState st' c == 1)
          sendAll st' dests (.fileSignal signal topic fileId)

/-- The FCM block at the end of `handlePublish`; `FCMService.sendPush` talks to
an external gateway and is modeled as an appended `(session, userId, messageId)`
push record. -/
def fcmBlock (st : BrokerState) (sess : String) (session : Session)
    (topic messageId : String) : BrokerState :=
  if session.fcmEnabled then
    let subscribers := getSubscribers st sess topic
    let offline :=
      (subscribers.filterMap (fun c =>
        match getConn st c with
        | some cn =>
          match cn.userId with
          | some u => if isUserOnline st sess u then none else some u
          | none => none
        | none => none)).dedup
    { st with fcmPushes := st.fcmPushes ++ offline.map (fun u => (sess, u, messageId)) }
  else st

/-- `handlePublish` of `wsHandler.js`: optimistic fan-out to subscribers other
than the sender, cache, then schedule a retry iff at least one subscriber was
reached (otherwise remove), run the FCM hook, and acknowledge the publisher. -/
def handlePublish (st : BrokerState) (self : Nat) (topic data hash : String)
    (timestamp : Nat) (messageId : String) : BrokerState :=
  match getConn st self with
  | none => st
  | some conn =>
    match conn.clientSession with
    | none => sendTo st self (.errorMsg "Not initialized")
    | some sess =>
      match alookup st.sessions sess with
      | none =>
        sendTo st self (.publishResponse false none none (some "Session suspended or invalid"))
      | some session =>
        if session.suspended then
          sendTo st self (.publishResponse false none none (some "Session suspended or invalid"))
        else
          let subscribers := getSubscribers st sess topic
          let payload : Frame := .message topic data hash timestamp messageId none
          let dests := subscribers.filter (fun c => c != self && connReadyState st c == 1)
          let st1 := sendAll st dests payload
          let deliveredCount := dests.length
          let st2 := cacheMessage st1 sess topic messageId
            ⟨data, hash, timestamp, topic, "publish"⟩ session
          let st3 :=
            if deliveredCount > 0 then scheduleRetry st2 sess topic messageId session
            else removeMessage st2 sess topic messageId
          let st4 := fcmBlock st3 sess session topic messageId
          sendTo st4 self (.publishResponse true (some messageId) (some deliveredCount) none)

/-- `handleAck` of `wsHandler.js`: unauthenticated acks return silently (no
reply); authenticated acks only call `messageCache.removeMessage` — the source
never sends an `ack_received` frame. -/
def handleAck (st : BrokerState) (self : Nat) (topic messageId : String) : BrokerState :=
  match getConn st self with
  | none => st
  | some conn =>
    match conn.clientSession with
    | none => st
    | some sess => removeMessage st sess topic messageId

/-- `handleFCMTokenRegistration` of `wsHandler.js`.  The SHA-256 check and AES
decryption act on opaque client bytes; their combined outcome is carried on the
event: `none` models a hash/decrypt/shape failure, `some (token, deviceId,
platform)` success (then the token is persisted). -/
def handleFCMTokenRegistration (st : BrokerState) (self : Nat)
    (userId encryptedData hash : String)
    (payload : Option (String × String × String)) : BrokerState :=
  match getConn st self with
  | none => st
  | some conn =>
    match conn.clientSession with
    | none => sendTo st self (.fcmTokenResponse false (some "Not initialized"))
    | some sess =>
      if userId = "" ∨ encryptedData = "" ∨ hash = "" then
        sendTo st self (.fcmTokenResponse false
          (some "Missing required fields: userId, encryptedData, hash"))
      else
        match alookup st.sessions sess with
        | none => sendTo st self (.fcmTokenResponse false (some "Session not found"))
        | some _ =>
          match payload with
          | none => sendTo st self (.fcmTokenResponse false (some "verification failed"))
          | some p =>
            let st' := { st with deviceTokens := st.deviceTokens ++ [(sess, userId, p.2.1)] }
            sendTo st' self (.fcmTokenResponse true none)

/-- `retryMessage` of `wsHandler.js` (the retry-timer callback): reload the
message, drop it when the session is gone or suspended, redeliver to every OPEN
subscriber (the sender is NOT excluded here), then re-arm iff at least one
subscriber was reached. -/
def retryMessage (st : BrokerState) (sessionName topic messageId : String) : BrokerState :=
  match alookup st.messages messageId with
  | none => st
  | some message =>
    match alookup st.sessions sessionName with
    | none => removeMessage st sessionName topic messageId
    | some session =>
      if session.suspended then removeMessage st sessionName topic messageId
      else
        let subscribers := getSubscribers st sessionName topic
        let payload : Frame := .message topic message.data message.hash message.timestamp
          messageId (some message.retryCount)
        let dests := subscribers.filter (fun c => connReadyState st c == 1)
        let st1 := sendAll st dests payload
        if dests.length > 0 then scheduleRetry st1 sessionName topic messageId session
        else removeMessage st1 sessionName topic messageId

/-- The `ws.on('close')` handler: unregister the user connection and
unsubscribe every owned topic from the current `clientSession`. -/
def closeConn (st : BrokerState) (self : Nat) : BrokerState :=
  match getConn st self with
  | none => st
  | some conn =>
    let st' := setConn st self { conn with readyState := 3 }
    match conn.clientSession with
    | none => st'
    | some sess =>
      let st'' :=
        match conn.userId with
        | some u => unregisterUserConnection st' sess u
        | none => st'
      conn.clientSubscriptions.foldl (fun acc t => unsubscribe acc sess t self) st''

/-- Incoming text frames (`JSON.parse` of a text message), by `type`. -/
inductive ClientFrame where
  | init (sessionName password : String) (userId : Option String)
  | subscribe (topic : String)
  | unsubscribe (topic : String)
  | publish (topic data hash : String) (timestamp : Nat) (messageId : String)
  | ack (topic messageId : String)
  | initFile (topic fileId : String)
  | endFile (topic fileId : String)
  | registerFcmToken (userId encryptedData hash : String)
      (payload : Option (String × String × String))
  | unknown
  deriving Repr, DecidableEq

/-- The `switch (message.type)` dispatch of `ws.on('message')` for text frames. -/
def onTextMessage (st : BrokerState) (self : Nat) (f : ClientFrame) : BrokerState :=
  match f with
  | .init s p u => handleInit st self s p u
  | .subscribe t => handleSubscribe st self t
  | .unsubscribe t => handleUnsubscribe st self t
  | .publish t d h ts m => handlePublish st self t d h ts m
  | .ack t m => handleAck st self t m
  | .initFile t fid => handleFileSignal st self "init_file" t fid
  | .endFile t fid => handleFileSignal st self "end_file" t fid
  | .registerFcmToken u e h p => handleFCMTokenRegistration st self u e h p
  | .unknown => sendTo st self (.errorMsg "Unknown message type")

/-- Externally visible events driving the broker: client frames, timer firings
(punctual: the clock jumps to the deadline), clock advances, socket closes and
the admin HTTP endpoints of `server.js`. -/
inductive Event where
  | text (self : Nat) (frame : ClientFrame)
  | binary (self : Nat) (b : BinMsg)
  | fire (tid : Nat)
  | tick (t : Nat)
  | close (self : Nat)
  | adminCreate (args : CreateSessionArgs) (freshKey : String)
  | adminDrop (sessionName password secretKey : String)
  | adminSuspend (sessionName password secretKey : String) (suspend : Bool)
  deriving Repr, DecidableEq

/-- One atomic broker step.  `fire tid` consumes the pending timer and runs
`retryCallback = retryMessage` at its deadline; `adminDrop` mirrors the
`/api/dropSession` endpoint, which runs `messageCache.clearSession` only after
`dropSession` succeeded. -/
def step (st : BrokerState) (ev : Event) : BrokerState :=
  match ev with
  | .text self f => onTextMessage st self f
  | .binary self b => handleBinaryMessage st self b
  | .fire tid =>
    match st.pending.find? (fun t => t.id == tid) with
    | none => st
    | some t =>
      if st.now ≤ t.due then
        let st' := { st with pending := st.pending.filter (fun u => u.id != tid), now := t.due }
        retryMessage st' t.sessionName t.topic t.messageId
      else st
  | .tick t => if st.now ≤ t then { st with now := t } else st
  | .close self => closeConn st self
  | .adminCreate args freshKey =>
    match createSession st args freshKey with
    | .ok (st', _) => st'
    | .error _ => st
  | .adminDrop n p k =>
    match dropSession st n p k with
    | .ok st' => clearSession st' n
    | .error _ => st
  | .adminSuspend n p k s =>
    match suspendSession st n p k s with
    | .ok (st', _) => st'
    | .error _ => st

/-- Run a sequence of events. -/
def run (st : BrokerState) (evs : List Event) : BrokerState :=
  evs.foldl step st

/-- Does this frame deliver message `m` (a `message` envelope with that id)? -/
def isMessageFrameFor (m : String) : Frame → Bool
  | .message _ _ _ _ mid _ => mid == m
  | _ => false

/-- Number of `message` frames for id `m` sent to connection `d` so far. -/
def msgCount (st : BrokerState) (m : String) (d : Nat) : Nat :=
  (st.sent.filter (fun r => r.dest == d && isMessageFrameFor m r.frame)).length

/-- The live (armed, not yet fired, not cleared) timers for message `m`. -/
def timersFor (st : BrokerState) (m : String) : List PendingTimer :=
  st.pending.filter (fun t => t.messageId == m)

/-- All frames sent to connection `d`, in send order. -/
def sentTo (st : BrokerState) (d : Nat) : List Frame :=
  (st.sent.filter (fun r => r.dest == d)).map SentRec.frame

/-- A fresh, unauthenticated connection (state New, socket OPEN). -/
def newConn : Conn := ⟨none, none, 1, [], []⟩

/-- A broker that just started (empty store) with the given open connections. -/
def initialState (connIds : List Nat) : BrokerState :=
  { sessions := [], messages := [], retryTimers := [], pending := [], nextTimerId := 0,
    activeSubscribers := [], userConnections := [],
    conns := connIds.map (fun c => (c, newConn)), deviceTokens := [],
    now := 0, sent := [], fcmPushes := [] }

/-- Plain `createSession` arguments: all optional fields omitted. -/
def mkArgs (name pw : String) : CreateSessionArgs :=
  ⟨name, pw, none, none, none, none, false⟩

end FastPort

namespace FastPort

/-! ## Concrete scenario traces used by counterexamples and bug exhibits -/

/-- C1 scenario: one session, a publisher (0) and a subscriber (1); the same
`messageId` is published twice with no intervening ack, expiry or drop. -/
def c1Trace : List Event :=
  [ .adminCreate (mkArgs "s" "pw") "k",
    .text 0 (.init "s" "pw" none),
    .text 1 (.init "s" "pw" none),
    .text 1 (.subscribe "t"),
    .text 0 (.publish "t" "d" "h" 0 "m1"),
    .text 0 (.publish "t" "d" "h" 0 "m1") ]

/-- C2 scenario: connection 0 authenticates to session A, subscribes topic t,
re-authenticates to session B (the source accepts a second `init`) and
subscribes t under B; connection 1 then publishes on (A, t). -/
def c2Trace : List Event :=
  [ .adminCreate (mkArgs "A" "pw") "ka",
    .adminCreate (mkArgs "B" "pw") "kb",
    .text 0 (.init "A" "pw" none),
    .text 0 (.subscribe "t"),
    .text 0 (.init "B" "pw" none),
    .text 0 (.subscribe "t"),
    .text 1 (.init "A" "pw" none),
    .text 1 (.publish "t" "d" "h" 0 "mX") ]

/-- C4 scenario (spec S4): `retryInterval_ms = 100`, `messageExpiryTime_ms =
150`; publish at t = 0, then let both armed timers fire. -/
def c4Trace : List Event :=
  [ .adminCreate ⟨"s", "pw", some 100, none, some 150, none, false⟩ "k",
    .text 0 (.init "s" "pw" none),
    .text 1 (.init "s" "pw" none),
    .text 1 (.subscribe "t"),
    .text 0 (.publish "t" "d" "h" 7 "m4"),
    .fire 0,
    .fire 1 ]

/-- C5 scenario (spec S1): publish, then the subscriber acks. -/
def c5Trace : List Event :=
  [ .adminCreate (mkArgs "s" "pw") "k",
    .text 0 (.init "s" "pw" none),
    .text 1 (.init "s" "pw" none),
    .text 1 (.subscribe "t"),
    .text 0 (.publish "t" "d" "h" 1 "m1"),
    .text 1 (.ack "t" "m1") ]

/-- C7 scenario: a session created with `maxRetryLimit` explicitly 0, then a
publish that reaches one subscriber. -/
def c7Trace : List Event :=
  [ .adminCreate ⟨"s", "pw", none, some 0, none, none, false⟩ "k",
    .text 0 (.init "s" "pw" none),
    .text 1 (.init "s" "pw" none),
    .text 1 (.subscribe "t"),
    .text 0 (.publish "t" "d" "h" 0 "m7") ]

/-- State after creating session s (for the C8 double-drop exhibit). -/
def c8Created : BrokerState :=
  run (initialState []) [Event.adminCreate (mkArgs "s" "pw") "k"]

/-- C1 (code bug). `scheduleRetry` overwrites `retryTimers[timerKey]` without
clearing the previously tracked `setTimeout`, so publishing the same
`messageId` twice under one session and topic — with no intervening terminal
event — leaves TWO live retry timers armed for it, violating the at-most-one
live timer invariant claimed for every execution. -/
theorem c1_double_publish_leaves_two_live_timers :
    (timersFor (run (initialState [0, 1]) c1Trace) "m1").length = 2 ∧
    alookup (run (initialState [0, 1]) c1Trace).retryTimers (timerKey "s" "t" "m1") =
      some 1 := by
  constructor
  · rfl
  · rfl

/-- C4 counterexample.  With `retryInterval_ms = 100` and
`messageExpiryTime_ms = 150` the cached message gets `expiryAt = 150`, yet the
subscriber is redelivered the message at wall-clock time 200 ≥ 150: the t = 100
firing passes the schedule-time expiry check (100 ≤ 150) and arms a timer for
t = 200, whose callback sends before any expiry test. -/
theorem c4_counterexample_redelivery_at_expiry :
    (alookup (run (initialState [0, 1]) (c4Trace.take 5)).messages "m4").map
      CachedMessage.expiryTime = some (some 150) ∧
    (run (initialState [0, 1]) c4Trace).sent.filter
        (fun r => isMessageFrameFor "m4" r.frame && decide (150 ≤ r.time)) =
      [⟨200, 1, .message "t" "d" "h" 0 "m4" (some 2)⟩] := by
  constructor
  · rfl
  · rfl

/-- C5 (code bug).  Processing the subscriber's ack does remove the cached
message (timer cancelled, storage entry deleted), but no `ack_received` frame
is ever sent: the original publisher (connection 0, still Authenticated)
receives nothing, although the repository's own protocol documentation, client
and test suite expect `ack_received{messageId}`. -/
theorem c5_ack_removes_but_never_sends_ack_received :
    alookup (run (initialState [0, 1]) c5Trace).messages "m1" = none ∧
    timersFor (run (initialState [0, 1]) c5Trace) "m1" = [] ∧
    connSession (run (initialState [0, 1]) c5Trace) 0 = some "s" ∧
    (run (initialState [0, 1]) c5Trace).sent.filter
      (fun r => match r.frame with | .ackReceived _ => true | _ => false) = [] := by
  refine ⟨rfl, rfl, rfl, rfl⟩

/-- C7 counterexample.  `createSession` defaults with `||`, so an explicit
`maxRetryLimit: 0` is replaced by 100; a publish reaching one subscriber is
then cached and a retry timer IS armed, contradicting deliver-once semantics
for `maxRetryLimit = 0`. -/
theorem c7_counterexample_zero_retry_limit_becomes_100 :
    (alookup (run (initialState [0, 1]) c7Trace).sessions "s").map
      Session.maxRetryLimit = some 100 ∧
    (timersFor (run (initialState [0, 1]) c7Trace) "m7").length = 1 := by
  constructor
  · rfl
  · rfl

/-- C8 counterexample.  The first `dropSession` for session s succeeds, but a
second call with the same credentials fails with the NotFound error instead of
succeeding idempotently. -/
theorem c8_counterexample_second_drop_fails :
    (dropSession c8Created "s" "pw" "k").isOk = true ∧
    dropSession (run c8Created [Event.adminDrop "s" "pw" "k"]) "s" "pw" "k" =
      .error "Session not found" := by
  constructor
  · rfl
  · rfl

/-- C9 counterexample.  An `ack` text frame and a binary file-chunk frame from
a connection in state New are dropped SILENTLY: the broker state — including
the send log — is completely unchanged, so no error reply with
"Not initialized" is produced for them. -/
theorem c9_counterexample_new_ack_silently_dropped :
    step (initialState [0]) (.text 0 (.ack "t" "m")) = initialState [0] ∧
    step (initialState [0]) (.binary 0 ⟨100, 2, "f", 59⟩) = initialState [0] := by
  constructor
  · rfl
  · rfl

/-- C2 counterexample.  After connection 0 — subscribed to t under A — re-runs
`init` for session B and subscribes t under B, a publish issued under session A
on t is still delivered to it: a connection subscribed to (B, t) receives a
publish of (A, t) with A ≠ B, because its stale (A, t) subscription survives
re-authentication. -/
theorem c2_counterexample_reinit_cross_session :
    connSession (run (initialState [0, 1]) c2Trace) 0 = some "B" ∧
    (0 ∈ getSubscribers (run (initialState [0, 1]) c2Trace) "B" "t") ∧
    msgCount (run (initialState [0, 1]) c2Trace) "mX" 0 = 1 := by
  refine ⟨rfl, ?_, rfl⟩
  decide

end FastPort

namespace FastPort

/-! ## Association-list lemmas -/

theorem alookup_cons {κ α : Type} [BEq κ] (p : κ × α) (l : List (κ × α)) (k : κ) :
    alookup (p :: l) k = if p.1 == k then some p.2 else alookup l k := by
  simp only [alookup, List.find?]
  cases h : p.1 == k <;> simp [h]

theorem alookup_aset_self {κ α : Type} [BEq κ] [LawfulBEq κ]
    (l : List (κ × α)) (k : κ) (v : α) : alookup (aset l k v) k = some v := by
  induction l with
  | nil => simp [aset, alookup_cons]
  | cons p rest ih =>
    rw [aset]
    by_cases hp : p.1 == k
    · simp [hp, alookup_cons]
    · simp [hp, alookup_cons, ih]

theorem alookup_aset_ne {κ α : Type} [BEq κ] [LawfulBEq κ]
    (l : List (κ × α)) (k k' : κ) (v : α) (h : k' ≠ k) :
    alookup (aset l k v) k' = alookup l k' := by
  have hkk : (k == k') = false := by
    rw [beq_eq_false_iff_ne]
    exact fun he => h he.symm
  induction l with
  | nil => simp [aset, alookup_cons, alookup, hkk]
  | cons p rest ih =>
    rw [aset]
    by_cases hp : p.1 == k
    · have hpk : p.1 = k := beq_iff_eq.mp hp
      simp [alookup_cons, hpk, hkk]
    · simp only [hp, Bool.false_eq_true, ite_false, alookup_cons]
      by_cases he : p.1 == k'
      · simp [he]
      · simp [he, ih]

theorem alookup_aerase_self {κ α : Type} [BEq κ] [LawfulBEq κ]
    (l : List (κ × α)) (k : κ) : alookup (aerase l k) k = none := by
  induction l with
  | nil => rfl
  | cons p rest ih =>
    by_cases hp : p.1 == k
    · have hb : (p.1 != k) = false := by simp [bne, hp]
      simpa [aerase, List.filter_cons, hb] using ih
    · have hb : (p.1 != k) = true := by simp [bne, hp]
      simpa [aerase, List.filter_cons, hb, alookup_cons, hp] using ih

theorem alookup_aerase_ne {κ α : Type} [BEq κ] [LawfulBEq κ]
    (l : List (κ × α)) (k k' : κ) (h : k' ≠ k) :
    alookup (aerase l k) k' = alookup l k' := by
  induction l with
  | nil => rfl
  | cons p rest ih =>
    by_cases hp : p.1 == k
    · have hb : (p.1 != k) = false := by simp [bne, hp]
      have hpk : p.1 = k := beq_iff_eq.mp hp
      have hpe : (p.1 == k') = false := by
        rw [beq_eq_false_iff_ne, hpk]
        exact fun he => h he.symm
      have hstep : aerase (p :: rest) k = aerase rest k := by
        simp [aerase, List.filter_cons, hb]
      rw [hstep, ih, alookup_cons]
      simp [hpe]
    · have hb : (p.1 != k) = true := by simp [bne, hp]
      have hstep : aerase (p :: rest) k = p :: aerase rest k := by
        simp [aerase, List.filter_cons, hb]
      rw [hstep, alookup_cons, alookup_cons]
      by_cases he : p.1 == k' <;> simp [he, ih]

theorem aset_of_alookup_eq {κ α : Type} [BEq κ] [LawfulBEq κ]
    (l : List (κ × α)) (k : κ) (v : α) (h : alookup l k = some v) :
    aset l k v = l := by
  induction l with
  | nil => simp [alookup] at h
  | cons p rest ih =>
    rw [alookup_cons] at h
    rw [aset]
    by_cases hp : p.1 == k
    · have hpk : p.1 = k := beq_iff_eq.mp hp
      simp only [hp, ite_true] at h
      have hv : p.2 = v := Option.some.inj h
      simp only [hp, ite_true]
      rw [← hpk, ← hv]
    · simp only [hp, Bool.false_eq_true, ite_false] at h
      simp [hp, ih h]

end FastPort

namespace FastPort

/-! ## Elementary effect lemmas -/

theorem removeMessage_messages (st : BrokerState) (s t mid : String) :
    (removeMessage st s t mid).messages = aerase st.messages mid := by
  simp only [removeMessage]
  split <;> rfl

theorem removeMessage_sent (st : BrokerState) (s t mid : String) :
    (removeMessage st s t mid).sent = st.sent := by
  simp only [removeMessage]
  split <;> rfl

theorem removeMessage_sessions (st : BrokerState) (s t mid : String) :
    (removeMessage st s t mid).sessions = st.sessions := by
  simp only [removeMessage]
  split <;> rfl

theorem removeMessage_now (st : BrokerState) (s t mid : String) :
    (removeMessage st s t mid).now = st.now := by
  simp only [removeMessage]
  split <;> rfl

theorem removeMessage_pending_cases (st : BrokerState) (s t mid : String) :
    (removeMessage st s t mid).pending = st.pending ∨
    ∃ tid, (removeMessage st s t mid).pending = st.pending.filter (fun u => u.id != tid) := by
  simp only [removeMessage]
  split
  · rename_i tid heq
    exact Or.inr ⟨tid, rfl⟩
  · exact Or.inl rfl

theorem removeMessage_pending_mem (st : BrokerState) (s t mid : String)
    (tmr : PendingTimer) (h : tmr ∈ (removeMessage st s t mid).pending) :
    tmr ∈ st.pending := by
  rcases removeMessage_pending_cases st s t mid with hc | ⟨tid, hc⟩
  · rwa [hc] at h
  · rw [hc] at h
    exact List.mem_of_mem_filter h

theorem scheduleRetry_sent (st : BrokerState) (s t mid : String) (ses : Session) :
    (scheduleRetry st s t mid ses).sent = st.sent := by
  simp only [scheduleRetry]
  split
  · rfl
  · split
    · exact removeMessage_sent st s t mid
    · split
      · exact removeMessage_sent st s t mid
      · rfl

theorem scheduleRetry_sessions (st : BrokerState) (s t mid : String) (ses : Session) :
    (scheduleRetry st s t mid ses).sessions = st.sessions := by
  simp only [scheduleRetry]
  split
  · rfl
  · split
    · exact removeMessage_sessions st s t mid
    · split
      · exact removeMessage_sessions st s t mid
      · rfl

theorem scheduleRetry_now (st : BrokerState) (s t mid : String) (ses : Session) :
    (scheduleRetry st s t mid ses).now = st.now := by
  simp only [scheduleRetry]
  split
  · rfl
  · split
    · exact removeMessage_now st s t mid
    · split
      · exact removeMessage_now st s t mid
      · rfl

theorem fcmBlock_messages (st : BrokerState) (sess : String) (ses : Session) (t mid : String) :
    (fcmBlock st sess ses t mid).messages = st.messages := by
  simp only [fcmBlock]
  split <;> rfl

theorem fcmBlock_pending (st : BrokerState) (sess : String) (ses : Session) (t mid : String) :
    (fcmBlock st sess ses t mid).pending = st.pending := by
  simp only [fcmBlock]
  split <;> rfl

theorem fcmBlock_sent (st : BrokerState) (sess : String) (ses : Session) (t mid : String) :
    (fcmBlock st sess ses t mid).sent = st.sent := by
  simp only [fcmBlock]
  split <;> rfl

theorem fcmBlock_sessions (st : BrokerState) (sess : String) (ses : Session) (t mid : String) :
    (fcmBlock st sess ses t mid).sessions = st.sessions := by
  simp only [fcmBlock]
  split <;> rfl

theorem fcmBlock_now (st : BrokerState) (sess : String) (ses : Session) (t mid : String) :
    (fcmBlock st sess ses t mid).now = st.now := by
  simp only [fcmBlock]
  split <;> rfl

/-! ## C8 — DropSession is not idempotent -/

/-- C8 (amended).  After a first successful `dropSession` for a session the
session record is gone from storage, and every further `dropSession` call with
the same arguments fails with the NotFound error — instead of succeeding, as
the claim stated. -/
theorem c8_second_drop_returns_not_found (st st' : BrokerState) (n p k : String)
    (h : dropSession st n p k = .ok st') :
    alookup st'.sessions n = none ∧
    dropSession st' n p k = .error "Session not found" := by
  have hsessions : st'.sessions = aerase st.sessions n := by
    unfold dropSession at h
    split at h
    · exact absurd h (by simp)
    · split at h
      · exact absurd h (by simp)
      · have hx := Except.ok.inj h
        rw [← hx]
        split
        · rfl
        · rfl
  have hnone : alookup st'.sessions n = none := by
    rw [hsessions]
    exact alookup_aerase_self st.sessions n
  refine ⟨hnone, ?_⟩
  unfold dropSession
  rw [hnone]

/-! ## C9 — behavior of a New connection, frame by frame -/

/-- What the broker actually replies, per frame type, when the connection has
not completed `init`: dispatched control frames get the "Not initialized"
error (the FCM registration path wraps it in its response frame), unknown
types get "Unknown message type", and `ack` gets nothing at all. -/
def newStateReply : ClientFrame → List Frame
  | .init _ _ _ => []
  | .subscribe _ => [.errorMsg "Not initialized"]
  | .unsubscribe _ => [.errorMsg "Not initialized"]
  | .publish _ _ _ _ _ => [.errorMsg "Not initialized"]
  | .ack _ _ => []
  | .initFile _ _ => [.errorMsg "Not initialized"]
  | .endFile _ _ => [.errorMsg "Not initialized"]
  | .registerFcmToken _ _ _ _ => [.fcmTokenResponse false (some "Not initialized")]
  | .unknown => [.errorMsg "Unknown message type"]

/-- Is this an `init` frame? -/
def ClientFrame.isInitFrame : ClientFrame → Bool
  | .init _ _ _ => true
  | _ => false

/-- C9 (amended).  A connection in state New that receives any non-`init` text
frame, or a binary chunk, causes no observable effect except the reply listed
in `newStateReply` to the sender itself: in particular `subscribe`,
`unsubscribe`, `publish`, `init_file`, `end_file` and `register_fcm_token` are
answered with a "Not initialized" error, while `ack` and binary frames are
dropped silently with NO reply, and the connection stays New. -/
theorem c9_new_connection_reply_table (st : BrokerState) (self : Nat) (conn : Conn)
    (f : ClientFrame) (b : BinMsg)
    (hc : getConn st self = some conn) (hs : conn.clientSession = none)
    (hf : f.isInitFrame = false) :
    onTextMessage st self f =
      { st with sent := st.sent ++ (newStateReply f).map (fun fr => ⟨st.now, self, fr⟩) } ∧
    handleBinaryMessage st self b = st := by
  constructor
  · cases f with
    | init s p u => simp [ClientFrame.isInitFrame] at hf
    | subscribe t =>
      simp [onTextMessage, handleSubscribe, hc, hs, newStateReply, sendTo]
    | unsubscribe t =>
      simp [onTextMessage, handleUnsubscribe, hc, hs, newStateReply, sendTo]
    | publish t d h ts m =>
      simp [onTextMessage, handlePublish, hc, hs, newStateReply, sendTo]
    | ack t m =>
      simp [onTextMessage, handleAck, hc, hs, newStateReply]
    | initFile t fid =>
      simp [onTextMessage, handleFileSignal, hc, hs, newStateReply, sendTo]
    | endFile t fid =>
      simp [onTextMessage, handleFileSignal, hc, hs, newStateReply, sendTo]
    | registerFcmToken u e h p =>
      simp [onTextMessage, handleFCMTokenRegistration, hc, hs, newStateReply, sendTo]
    | unknown =>
      simp [onTextMessage, newStateReply, sendTo]
  · simp [handleBinaryMessage, hc, hs]

/-- Witness for C9 (amended): a concrete New connection receiving a `publish`
frame gets exactly the "Not initialized" error, and a binary chunk changes
nothing. -/
theorem c9_new_connection_reply_table_witness :
    onTextMessage (initialState [0]) 0 (.publish "t" "d" "h" 0 "m") =
      { initialState [0] with sent :=
          [⟨0, 0, .errorMsg "Not initialized"⟩] } ∧
    handleBinaryMessage (initialState [0]) 0 ⟨50, 2, "f", 9⟩ = initialState [0] := by
  have h := c9_new_connection_reply_table (initialState [0]) 0 newConn
    (.publish "t" "d" "h" 0 "m") ⟨50, 2, "f", 9⟩ (by rfl) (by rfl) (by rfl)
  exact h

end FastPort

namespace FastPort

/-- Witness for C8 (amended): dropping the concretely created session s once
succeeds, and the theorem yields that the second call reports NotFound. -/
theorem c8_second_drop_returns_not_found_witness :
    alookup (run c8Created [Event.adminDrop "s" "pw" "k"]).sessions "s" = none ∧
    dropSession (run c8Created [Event.adminDrop "s" "pw" "k"]) "s" "pw" "k" =
      .error "Session not found" := by
  have h := c8_second_drop_returns_not_found c8Created
    (run c8Created [Event.adminDrop "s" "pw" "k"]) "s" "pw" "k" (by rfl)
  exact h

/-! ## C4 — expiry is checked when scheduling, not when firing -/

/-- C4 (amended).  `scheduleRetry` arms a retry timer only while the message
is not yet expired: every timer it adds for a message whose captured
`expiryTime` is a non-zero `e` is armed at a scheduling instant `now ≤ e` with
deadline exactly `now + retryInterval`, hence at most `retryInterval` past
`e`.  Since the timer callback (`retryMessage`) redelivers at the deadline
without its own expiry test, a redelivery may land at a wall-clock time at or
after `e` (the counterexample exhibits t = 200 ≥ 150) but never later than
`e + retryInterval`. -/
theorem c4_retry_timer_armed_only_before_expiry (st : BrokerState)
    (s tp mid : String) (ses : Session) (tmr : PendingTimer)
    (hnew : tmr ∈ (scheduleRetry st s tp mid ses).pending)
    (hold : tmr ∉ st.pending) :
    ∃ msg, alookup st.messages mid = some msg ∧
      tmr.due = st.now + jsOr msg.retryInterval ses.retryInterval ∧
      ∀ e, msg.expiryTime = some e → e ≠ 0 →
        st.now ≤ e ∧ tmr.due ≤ e + jsOr msg.retryInterval ses.retryInterval := by
  unfold scheduleRetry at hnew
  split at hnew
  · exact absurd hnew hold
  · rename_i msg hmsg
    split at hnew
    · exact absurd (removeMessage_pending_mem st s tp mid tmr hnew) hold
    · rename_i hexp
      split at hnew <;>
      ( dsimp only at hnew
        split at hnew
        · exact absurd (removeMessage_pending_mem st s tp mid tmr hnew) hold
        · rw [List.mem_append] at hnew
          rcases hnew with hmem | hmem
          · exact absurd hmem hold
          · have htmr : tmr = ⟨st.nextTimerId, st.now + jsOr msg.retryInterval ses.retryInterval,
                s, tp, mid⟩ := by
              simpa using hmem
            refine ⟨msg, hmsg, by rw [htmr], ?_⟩
            intro e he hne
            have hnow : st.now ≤ e := by
              rw [he] at hexp
              unfold expiryHit at hexp
              simp only [Bool.and_eq_true, bne_iff_ne, ne_eq, decide_eq_true_eq] at hexp
              by_contra hlt
              exact hexp ⟨hne, by omega⟩
            constructor
            · exact hnow
            · rw [htmr]
              exact Nat.add_le_add_right hnow _ )

/-- Concrete session for the C4 witness. -/
def c4WitSession : Session :=
  ⟨"s", "pw", "k", 100, 3, some 150, none, false, false⟩

/-- Concrete cached message for the C4 witness. -/
def c4WitMsg : CachedMessage :=
  ⟨"m", "s", "t", "d", "h", "publish", 0, 0, some 150, some 3, some 100⟩

/-- Broker state holding just the C4 witness message. -/
def c4WitState : BrokerState :=
  { initialState [] with messages := [("m", c4WitMsg)] }

/-- Witness for C4 (amended): at the concrete state, `scheduleRetry` arms the
timer with deadline 0 + 100 = 100 ≤ 150 + 100. -/
theorem c4_retry_timer_armed_only_before_expiry_witness :
    ∃ msg, alookup c4WitState.messages "m" = some msg ∧
      (⟨0, 100, "s", "t", "m"⟩ : PendingTimer).due =
        c4WitState.now + jsOr msg.retryInterval c4WitSession.retryInterval ∧
      ∀ e, msg.expiryTime = some e → e ≠ 0 →
        c4WitState.now ≤ e ∧
        (⟨0, 100, "s", "t", "m"⟩ : PendingTimer).due ≤
          e + jsOr msg.retryInterval c4WitSession.retryInterval := by
  exact c4_retry_timer_armed_only_before_expiry c4WitState "s" "t" "m" c4WitSession
    ⟨0, 100, "s", "t", "m"⟩ (by decide) (by decide)
end FastPort

namespace FastPort

/-! ## Projection and observation helpers -/

@[simp] theorem sendTo_messages (st : BrokerState) (d : Nat) (fr : Frame) :
    (sendTo st d fr).messages = st.messages := rfl

@[simp] theorem sendTo_pending (st : BrokerState) (d : Nat) (fr : Frame) :
    (sendTo st d fr).pending = st.pending := rfl

@[simp] theorem sendAll_messages (st : BrokerState) (ds : List Nat) (fr : Frame) :
    (sendAll st ds fr).messages = st.messages := rfl

@[simp] theorem sendAll_pending (st : BrokerState) (ds : List Nat) (fr : Frame) :
    (sendAll st ds fr).pending = st.pending := rfl

@[simp] theorem cacheMessage_messages (st : BrokerState) (s t mid : String)
    (md : MessageData) (ses : Session) :
    (cacheMessage st s t mid md ses).messages = aset st.messages mid
      { messageId := mid, sessionName := s, topic := t, data := md.data, hash := md.hash,
        mtype := md.mtype, timestamp := st.now, retryCount := 0,
        expiryTime :=
          match ses.messageExpiryTime with
          | some t => if t = 0 then none else some (st.now + t)
          | none => none,
        maxRetryLimit := some ses.maxRetryLimit, retryInterval := some ses.retryInterval } := rfl

@[simp] theorem cacheMessage_pending (st : BrokerState) (s t mid : String)
    (md : MessageData) (ses : Session) :
    (cacheMessage st s t mid md ses).pending = st.pending := rfl

@[simp] theorem cacheMessage_sent (st : BrokerState) (s t mid : String)
    (md : MessageData) (ses : Session) :
    (cacheMessage st s t mid md ses).sent = st.sent := rfl

theorem sentTo_eq_of_sent_eq {st1 st2 : BrokerState} (h : st1.sent = st2.sent) (d : Nat) :
    sentTo st1 d = sentTo st2 d := by
  simp [sentTo, h]

theorem timersFor_eq_of_pending_eq {st1 st2 : BrokerState} (h : st1.pending = st2.pending)
    (m : String) : timersFor st1 m = timersFor st2 m := by
  simp [timersFor, h]

theorem sentTo_sendTo_self (st : BrokerState) (d : Nat) (fr : Frame) :
    sentTo (sendTo st d fr) d = sentTo st d ++ [fr] := by
  simp [sentTo, sendTo, List.filter_append]

theorem timersFor_removeMessage_of_nil (st : BrokerState) (s t mid m : String)
    (h : timersFor st m = []) : timersFor (removeMessage st s t mid) m = [] := by
  have hall : ∀ u ∈ st.pending, ¬(u.messageId == m) = true :=
    List.filter_eq_nil_iff.mp (by simpa [timersFor] using h)
  rcases removeMessage_pending_cases st s t mid with hc | ⟨tid, hc⟩
  · simp only [timersFor, hc]
    exact List.filter_eq_nil_iff.mpr hall
  · simp only [timersFor, hc]
    exact List.filter_eq_nil_iff.mpr (fun u hu => hall u (List.mem_of_mem_filter hu))

/-! ## C6 — publish with zero live subscribers -/

/-- C6.  When an authenticated, non-suspended connection publishes on a topic
whose subscriber snapshot — excluding the sender and non-OPEN sockets — is
empty, the handler caches and immediately removes the message: afterwards
storage holds no entry for the messageId, no retry timer is armed for it
(given none was armed before), and the publisher is answered
`publish_response{success:true, deliveredTo:0}`. -/
theorem c6_publish_no_subscribers_leaves_nothing (st : BrokerState) (self : Nat)
    (conn : Conn) (sess : String) (session : Session) (topic data hash : String)
    (ts : Nat) (mid : String)
    (hc : getConn st self = some conn) (hs : conn.clientSession = some sess)
    (hses : alookup st.sessions sess = some session) (hsusp : session.suspended = false)
    (hdests : (getSubscribers st sess topic).filter
        (fun c => c != self && connReadyState st c == 1) = [])
    (htimers : timersFor st mid = []) :
    alookup (handlePublish st self topic data hash ts mid).messages mid = none ∧
    timersFor (handlePublish st self topic data hash ts mid) mid = [] ∧
    sentTo (handlePublish st self topic data hash ts mid) self =
      sentTo st self ++ [.publishResponse true (some mid) (some 0) none] := by
  have hstep : handlePublish st self topic data hash ts mid =
      sendTo (fcmBlock (removeMessage
          (cacheMessage (sendAll st [] (.message topic data hash ts mid none))
            sess topic mid ⟨data, hash, ts, topic, "publish"⟩ session)
          sess topic mid)
        sess session topic mid) self (.publishResponse true (some mid) (some 0) none) := by
    simp only [handlePublish, hc, hs, hses, hsusp, hdests]
    simp
  rw [hstep]
  have hrm : timersFor (removeMessage
      (cacheMessage (sendAll st [] (.message topic data hash ts mid none))
        sess topic mid ⟨data, hash, ts, topic, "publish"⟩ session) sess topic mid) mid = [] :=
    timersFor_removeMessage_of_nil _ sess topic mid mid htimers
  have hsent : (fcmBlock (removeMessage
      (cacheMessage (sendAll st [] (.message topic data hash ts mid none))
        sess topic mid ⟨data, hash, ts, topic, "publish"⟩ session)
      sess topic mid) sess session topic mid).sent = st.sent := by
    rw [fcmBlock_sent, removeMessage_sent]
    simp [sendAll]
  refine ⟨?_, ?_, ?_⟩
  · show alookup (fcmBlock (removeMessage _ sess topic mid) sess session topic mid).messages
      mid = none
    rw [fcmBlock_messages, removeMessage_messages]
    exact alookup_aerase_self _ mid
  · calc timersFor (sendTo (fcmBlock (removeMessage _ sess topic mid)
          sess session topic mid) self (.publishResponse true (some mid) (some 0) none)) mid
        = timersFor (fcmBlock (removeMessage _ sess topic mid) sess session topic mid) mid :=
          timersFor_eq_of_pending_eq rfl mid
      _ = timersFor (removeMessage _ sess topic mid) mid :=
          timersFor_eq_of_pending_eq (fcmBlock_pending _ _ _ _ _) mid
      _ = [] := hrm
  · calc sentTo (sendTo (fcmBlock (removeMessage _ sess topic mid)
          sess session topic mid) self (.publishResponse true (some mid) (some 0) none)) self
        = sentTo (fcmBlock (removeMessage _ sess topic mid) sess session topic mid) self ++
            [.publishResponse true (some mid) (some 0) none] := sentTo_sendTo_self _ _ _
      _ = sentTo st self ++ [.publishResponse true (some mid) (some 0) none] := by
          rw [sentTo_eq_of_sent_eq hsent]

/-- The state for the C6 witness: session s created, connection 0 authenticated. -/
def c6WitState : BrokerState :=
  run (initialState [0])
    [ .adminCreate (mkArgs "s" "pw") "k", .text 0 (.init "s" "pw" none) ]

/-- Witness for C6: publishing m on topic t with no other connection leaves no
cache entry, no timer, and replies deliveredTo := 0. -/
theorem c6_publish_no_subscribers_leaves_nothing_witness :
    alookup (handlePublish c6WitState 0 "t" "d" "h" 0 "m").messages "m" = none ∧
    timersFor (handlePublish c6WitState 0 "t" "d" "h" 0 "m") "m" = [] ∧
    sentTo (handlePublish c6WitState 0 "t" "d" "h" 0 "m") 0 =
      sentTo c6WitState 0 ++ [.publishResponse true (some "m") (some 0) none] := by
  exact c6_publish_no_subscribers_leaves_nothing c6WitState 0
    ⟨some "s", none, 1, [], []⟩ "s" ⟨"s", "pw", "k", 5000, 100, none, none, false, false⟩
    "t" "d" "h" 0 "m" (by decide) rfl (by decide) rfl (by decide) rfl

end FastPort

namespace FastPort

/-! ## Counting delivered message frames -/

theorem msgCount_eq_of_sent_eq {st1 st2 : BrokerState} (h : st1.sent = st2.sent)
    (m : String) (d : Nat) : msgCount st1 m d = msgCount st2 m d := by
  simp [msgCount, h]

theorem msgCount_sendTo_nonmsg (st : BrokerState) (d' : Nat) (fr : Frame) (m : String)
    (d : Nat) (h : isMessageFrameFor m fr = false) :
    msgCount (sendTo st d' fr) m d = msgCount st m d := by
  simp [msgCount, sendTo, List.filter_append, h]

theorem filter_sent_map (now : Nat) (fr : Frame) (m : String) (d : Nat) (ds : List Nat) :
    ((ds.map (fun e => (⟨now, e, fr⟩ : SentRec))).filter
        (fun r => r.dest == d && isMessageFrameFor m r.frame)).length =
      if isMessageFrameFor m fr then (ds.filter (fun x => x == d)).length else 0 := by
  induction ds with
  | nil => cases hfr : isMessageFrameFor m fr <;> simp [hfr]
  | cons a rest ih =>
    cases hfr : isMessageFrameFor m fr
    · simp only [hfr] at ih ⊢
      simp only [List.map_cons, List.filter_cons] at ih ⊢
      simp only [hfr, Bool.and_false, Bool.false_eq_true, ite_false]
      exact ih
    · simp only [hfr] at ih ⊢
      simp only [List.map_cons, List.filter_cons] at ih ⊢
      cases had : a == d <;> simp [hfr, had, ih]

theorem msgCount_sendAll (st : BrokerState) (ds : List Nat) (fr : Frame) (m : String)
    (d : Nat) :
    msgCount (sendAll st ds fr) m d = msgCount st m d +
      (if isMessageFrameFor m fr then (ds.filter (fun x => x == d)).length else 0) := by
  simp only [msgCount, sendAll, List.filter_append, List.length_append]
  rw [filter_sent_map]

theorem length_filter_beq_le_one {l : List Nat} (h : l.Nodup) (d : Nat) :
    (l.filter (fun x => x == d)).length ≤ 1 := by
  induction l with
  | nil => simp
  | cons a rest ih =>
    obtain ⟨hnm, hrest⟩ := List.nodup_cons.mp h
    rw [List.filter_cons]
    cases had : a == d
    · simpa [had] using ih hrest
    · have had' : a = d := beq_iff_eq.mp had
      have hnil : rest.filter (fun x => x == d) = [] := by
        rw [List.filter_eq_nil_iff]
        intro x hx hbeq
        have hxd : x = d := beq_iff_eq.mp hbeq
        rw [hxd, ← had'] at hx
        exact hnm hx
      simp [had, hnil]

/-- With a cached `maxRetryLimit` of 0 and an unexpired message,
`scheduleRetry` is exactly `removeMessage`: the retry ceiling test
`retryCount >= 0` always fires. -/
theorem scheduleRetry_removes_at_zero_limit (st : BrokerState) (s t mid : String)
    (ses : Session) (msg : CachedMessage) (hm : alookup st.messages mid = some msg)
    (hexp : expiryHit st.now msg.expiryTime = false)
    (hlim : msg.maxRetryLimit = some 0) :
    scheduleRetry st s t mid ses = removeMessage st s t mid := by
  simp [scheduleRetry, hm, hexp, hlim]

/-- The expiry field just written by `cacheMessage` can never already be hit
at the same instant. -/
theorem expiryHit_fresh_false (now : Nat) (met : Option Nat) :
    expiryHit now (match met with
      | some t => if t = 0 then none else some (now + t)
      | none => none) = false := by
  match met with
  | none => rfl
  | some t =>
    by_cases ht : t = 0
    · simp [ht, expiryHit]
    · simp only [ht, if_neg, ite_false]
      simp only [expiryHit, Bool.and_eq_false_iff]
      right
      rw [decide_eq_false_iff_not]
      omega

/-! ## C7 — createSession defaulting and the zero-retry-limit behavior -/

/-- C7 (amended).  `createSession` replaces a FALSY `maxRetryLimit` or
`retryInterval` — omitted, null, or explicitly 0 — with the defaults 100 and
5000 (`jsOr` is exactly the `||` defaulting), so a session created with
`maxRetryLimit: 0` actually stores 100 and its publishes ARE retried (the
counterexample exhibits the armed timer).  Deliver-once-never-retry does hold
for a session whose STORED `maxRetryLimit` is 0 (not producible through
`createSession`): such a publish leaves no cache entry, arms no timer, and
sends each subscriber at most one `message` frame. -/
theorem c7_falsy_defaults_and_stored_zero_limit :
    (∀ st args fk st' res, createSession st args fk = .ok (st', res) →
      ∃ s, alookup st'.sessions args.sessionName = some s ∧
        s.maxRetryLimit = jsOr args.maxRetryLimit 100 ∧
        s.retryInterval = jsOr args.retryInterval 5000) ∧
    (∀ st self conn sess session topic data hash ts mid,
      getConn st self = some conn → conn.clientSession = some sess →
      alookup st.sessions sess = some session → session.suspended = false →
      session.maxRetryLimit = 0 → timersFor st mid = [] →
      (getSubscribers st sess topic).Nodup →
      alookup (handlePublish st self topic data hash ts mid).messages mid = none ∧
      timersFor (handlePublish st self topic data hash ts mid) mid = [] ∧
      ∀ d, msgCount (handlePublish st self topic data hash ts mid) mid d ≤
        msgCount st mid d + 1) := by
  constructor
  · intro st args fk st' res h
    unfold createSession at h
    split at h
    · exact absurd h (by simp)
    · split at h
      · exact absurd h (by simp)
      · have hx := Except.ok.inj h
        have hst : st' = (Prod.mk st' res).1 := rfl
        rw [hst, ← hx]
        refine ⟨_, alookup_aset_self _ _ _, rfl, rfl⟩
  · intro st self conn sess session topic data hash ts mid hc hs hses hsusp hmax htimers hnd
    simp only [handlePublish, hc, hs, hses, hsusp]
    simp only [Bool.false_eq_true, if_false]
    set dests := (getSubscribers st sess topic).filter
      (fun c => c != self && connReadyState st c == 1) with hdests
    set st1 := sendAll st dests (.message topic data hash ts mid none) with hst1
    set st2 := cacheMessage st1 sess topic mid ⟨data, hash, ts, topic, "publish"⟩ session
      with hst2
    have hm2 : alookup st2.messages mid = some
        { messageId := mid, sessionName := sess, topic := topic, data := data, hash := hash,
          mtype := "publish", timestamp := st1.now, retryCount := 0,
          expiryTime :=
            match session.messageExpiryTime with
            | some t => if t = 0 then none else some (st1.now + t)
            | none => none,
          maxRetryLimit := some session.maxRetryLimit,
          retryInterval := some session.retryInterval } := by
      rw [hst2, cacheMessage_messages]
      exact alookup_aset_self _ _ _
    have hsched : scheduleRetry st2 sess topic mid session = removeMessage st2 sess topic mid := by
      refine scheduleRetry_removes_at_zero_limit st2 sess topic mid session _ hm2 ?_ ?_
      · exact expiryHit_fresh_false st1.now session.messageExpiryTime
      · simp [hmax]
    rw [hsched, ite_self]
    have htimers2 : timersFor st2 mid = [] := htimers
    have hrm : timersFor (removeMessage st2 sess topic mid) mid = [] :=
      timersFor_removeMessage_of_nil st2 sess topic mid mid htimers2
    refine ⟨?_, ?_, ?_⟩
    · show alookup (fcmBlock (removeMessage st2 sess topic mid) sess session topic mid).messages
        mid = none
      rw [fcmBlock_messages, removeMessage_messages, hst2, cacheMessage_messages]
      exact alookup_aerase_self _ mid
    · calc timersFor (sendTo (fcmBlock (removeMessage st2 sess topic mid)
            sess session topic mid) self
            (.publishResponse true (some mid) (some dests.length) none)) mid
          = timersFor (fcmBlock (removeMessage st2 sess topic mid) sess session topic mid)
              mid := timersFor_eq_of_pending_eq rfl mid
        _ = timersFor (removeMessage st2 sess topic mid) mid :=
            timersFor_eq_of_pending_eq (fcmBlock_pending _ _ _ _ _) mid
        _ = [] := hrm
    · intro d
      have hle : (dests.filter (fun x => x == d)).length ≤ 1 :=
        length_filter_beq_le_one (List.Nodup.filter _ hnd) d
      have h1 : msgCount st1 mid d ≤ msgCount st mid d + 1 := by
        rw [hst1, msgCount_sendAll]
        split
        · exact Nat.add_le_add_left hle _
        · omega
      calc msgCount (sendTo (fcmBlock (removeMessage st2 sess topic mid)
              sess session topic mid) self
              (.publishResponse true (some mid) (some dests.length) none)) mid d
          = msgCount (fcmBlock (removeMessage st2 sess topic mid) sess session topic mid)
              mid d := msgCount_sendTo_nonmsg _ _ _ _ _ rfl
        _ = msgCount (removeMessage st2 sess topic mid) mid d :=
            msgCount_eq_of_sent_eq (fcmBlock_sent _ _ _ _ _) mid d
        _ = msgCount st2 mid d :=
            msgCount_eq_of_sent_eq (removeMessage_sent _ _ _ _) mid d
        _ = msgCount st1 mid d := rfl
        _ ≤ msgCount st mid d + 1 := h1

end FastPort

namespace FastPort

/-- The session record produced by `createSession` with an explicit
`maxRetryLimit: 0` (the 0 is replaced by the default 100). -/
def c7aState : BrokerState :=
  { initialState [] with
      sessions := [("s", ⟨"s", "pw", "k", 5000, 100, none, none, false, false⟩)],
      activeSubscribers := [("s", [])] }

/-- A session whose STORED `maxRetryLimit` is 0 (not producible through
`createSession`), for the deliver-once half of the C7 witness. -/
def c7WitSession : Session := ⟨"s", "pw", "k", 5000, 0, none, none, false, false⟩

/-- Broker state for the C7 witness: publisher 0 and subscriber 1 on topic t
under the stored-zero-limit session. -/
def c7WitState : BrokerState :=
  { sessions := [("s", c7WitSession)], messages := [], retryTimers := [], pending := [],
    nextTimerId := 0, activeSubscribers := [("s", [("t", [1])])], userConnections := [],
    conns := [(0, ⟨some "s", none, 1, [], []⟩), (1, ⟨some "s", none, 1, ["t"], []⟩)],
    deviceTokens := [], now := 0, sent := [], fcmPushes := [] }

/-- Witness for C7 (amended), discharging both halves at concrete inputs. -/
theorem c7_falsy_defaults_and_stored_zero_limit_witness :
    (∃ s, alookup c7aState.sessions "s" = some s ∧
      s.maxRetryLimit = jsOr (some 0) 100 ∧ s.retryInterval = jsOr none 5000) ∧
    (alookup (handlePublish c7WitState 0 "t" "d" "h" 0 "m").messages "m" = none ∧
      timersFor (handlePublish c7WitState 0 "t" "d" "h" 0 "m") "m" = [] ∧
      ∀ d, msgCount (handlePublish c7WitState 0 "t" "d" "h" 0 "m") "m" d ≤
        msgCount c7WitState "m" d + 1) := by
  constructor
  · exact c7_falsy_defaults_and_stored_zero_limit.1 (initialState [])
      ⟨"s", "pw", none, some 0, none, none, false⟩ "k" c7aState ⟨"s", "pw", "k"⟩ (by rfl)
  · exact c7_falsy_defaults_and_stored_zero_limit.2 c7WitState 0 ⟨some "s", none, 1, [], []⟩
      "s" c7WitSession "t" "d" "h" 0 "m" (by rfl) rfl (by rfl) rfl rfl rfl (by decide)

end FastPort

namespace FastPort

/-! ## Subscribe and fan-out lemmas -/

theorem getSubscribers_eq_getD (st : BrokerState) (sess topic : String) :
    getSubscribers st sess topic =
      (alookup ((alookup st.activeSubscribers sess).getD []) topic).getD [] := by
  unfold getSubscribers
  cases alookup st.activeSubscribers sess with
  | none => simp [alookup]
  | some topics => simp

theorem subscribe_getSubscribers (st : BrokerState) (sess topic : String) (ws : Nat) :
    getSubscribers (subscribe st sess topic ws) sess topic =
      if ws ∈ getSubscribers st sess topic then getSubscribers st sess topic
      else getSubscribers st sess topic ++ [ws] := by
  have h1 : getSubscribers (subscribe st sess topic ws) sess topic =
      (alookup (aset ((alookup st.activeSubscribers sess).getD []) topic
        (if ws ∈ (alookup ((alookup st.activeSubscribers sess).getD []) topic).getD []
         then (alookup ((alookup st.activeSubscribers sess).getD []) topic).getD []
         else (alookup ((alookup st.activeSubscribers sess).getD []) topic).getD [] ++ [ws]))
        topic).getD [] := by
    unfold subscribe getSubscribers
    rw [alookup_aset_self]
  rw [h1, alookup_aset_self, Option.getD_some, ← getSubscribers_eq_getD]

theorem subscribe_mem_noop (st : BrokerState) (sess topic : String) (ws : Nat)
    (hmem : ws ∈ getSubscribers st sess topic) : subscribe st sess topic ws = st := by
  unfold getSubscribers at hmem
  cases hsess : alookup st.activeSubscribers sess with
  | none => simp [hsess] at hmem
  | some topics =>
    simp only [hsess] at hmem
    cases htop : alookup topics topic with
    | none => simp [htop] at hmem
    | some subs =>
      simp only [htop, Option.getD_some] at hmem
      unfold subscribe
      simp only [hsess, htop, Option.getD_some, hmem, ite_true]
      rw [aset_of_alookup_eq topics topic subs htop,
        aset_of_alookup_eq st.activeSubscribers sess topics hsess]

theorem sentTo_sendTo_ne (st : BrokerState) (d c : Nat) (fr : Frame) (h : d ≠ c) :
    sentTo (sendTo st d fr) c = sentTo st c := by
  have hb : (d == c) = false := beq_eq_false_iff_ne.mpr h
  simp [sentTo, sendTo, List.filter_append, hb]

theorem sentTo_sendAll_not_mem (st : BrokerState) (ds : List Nat) (fr : Frame) (c : Nat)
    (h : c ∉ ds) : sentTo (sendAll st ds fr) c = sentTo st c := by
  have hnil : (ds.map fun e => (⟨st.now, e, fr⟩ : SentRec)).filter (fun r => r.dest == c)
      = [] := by
    rw [List.filter_eq_nil_iff]
    intro r hr
    obtain ⟨e, he, rfl⟩ := List.mem_map.mp hr
    simp only [beq_iff_eq]
    intro hec
    exact h (hec ▸ he)
  simp [sentTo, sendAll, List.filter_append, hnil]

/-- Any single `handlePublish` sends at most one `message` frame (for any id,
to any destination) on top of what was already sent, provided the subscriber
snapshots are duplicate-free. -/
theorem msgCount_handlePublish_le (st : BrokerState) (self : Nat)
    (topic data hash : String) (ts : Nat) (mid m : String) (d : Nat)
    (hnd : ∀ sess, (getSubscribers st sess topic).Nodup) :
    msgCount (handlePublish st self topic data hash ts mid) m d ≤ msgCount st m d + 1 := by
  unfold handlePublish
  split
  · omega
  · split
    · rw [msgCount_sendTo_nonmsg]
      · omega
      · rfl
    · split
      · rw [msgCount_sendTo_nonmsg]
        · omega
        · rfl
      · split
        · rw [msgCount_sendTo_nonmsg]
          · omega
          · rfl
        · rename_i sess hs0 osess session hses2 hsusp2
          set dests := (getSubscribers st sess topic).filter
            (fun c => c != self && connReadyState st c == 1) with hdests
          set st1 := sendAll st dests (.message topic data hash ts mid none) with hst1
          set st2 := cacheMessage st1 sess topic mid ⟨data, hash, ts, topic, "publish"⟩
            session with hst2
          have hsent3 : (if dests.length > 0 then scheduleRetry st2 sess topic mid session
              else removeMessage st2 sess topic mid).sent = st1.sent := by
            split
            · rw [scheduleRetry_sent]; rfl
            · rw [removeMessage_sent]; rfl
          rw [msgCount_sendTo_nonmsg _ _ (.publishResponse true (some mid)
              (some dests.length) none) m d rfl,
            msgCount_eq_of_sent_eq (fcmBlock_sent _ _ _ _ _),
            msgCount_eq_of_sent_eq hsent3, hst1, msgCount_sendAll]
          have hle : (dests.filter (fun x => x == d)).length ≤ 1 :=
            length_filter_beq_le_one (List.Nodup.filter _ (hnd sess)) d
          split
          · omega
          · omega

/-! ## C10 — Subscribe is idempotent; at most one frame per publish -/

/-- C10.  Subscribing a connection that is already subscribed leaves the
subscriber index (indeed the whole broker state) unchanged, subscribing
preserves duplicate-freeness of the topic's subscriber list, and a publish
sends any connection at most one `message` frame when the subscriber lists
are duplicate-free — so a connection that subscribed twice still receives at
most one copy per publish. -/
theorem c10_subscribe_idempotent_single_delivery :
    (∀ st sess topic ws, ws ∈ getSubscribers st sess topic →
      subscribe st sess topic ws = st) ∧
    (∀ st sess topic ws, (getSubscribers st sess topic).Nodup →
      (getSubscribers (subscribe st sess topic ws) sess topic).Nodup) ∧
    (∀ st self topic data hash ts mid d,
      (∀ sess, (getSubscribers st sess topic).Nodup) →
      msgCount (handlePublish st self topic data hash ts mid) mid d ≤
        msgCount st mid d + 1) := by
  refine ⟨subscribe_mem_noop, ?_, ?_⟩
  · intro st sess topic ws hnd
    rw [subscribe_getSubscribers]
    by_cases hmem : ws ∈ getSubscribers st sess topic
    · simpa [hmem] using hnd
    · simp only [hmem, ite_false]
      simp [List.nodup_append, hnd, hmem]
  · intro st self topic data hash ts mid d hnd
    exact msgCount_handlePublish_le st self topic data hash ts mid mid d hnd

/-- Witness for C10 at concrete inputs: re-subscribing connection 1 to t is a
no-op, duplicate-freeness is kept, and the publish from connection 0 delivers
at most one frame to connection 1. -/
theorem c10_subscribe_idempotent_single_delivery_witness :
    subscribe c7WitState "s" "t" 1 = c7WitState ∧
    (getSubscribers (subscribe c7WitState "s" "t" 1) "s" "t").Nodup ∧
    msgCount (handlePublish c7WitState 0 "t" "d" "h" 0 "m") "m" 1 ≤
      msgCount c7WitState "m" 1 + 1 := by
  refine ⟨?_, ?_, ?_⟩
  · exact c10_subscribe_idempotent_single_delivery.1 c7WitState "s" "t" 1 (by decide)
  · exact c10_subscribe_idempotent_single_delivery.2.1 c7WitState "s" "t" 1 (by decide)
  · refine c10_subscribe_idempotent_single_delivery.2.2 c7WitState 0 "t" "d" "h" 0 "m" 1 ?_
    intro sess
    by_cases h : sess = "s"
    · rw [h]; decide
    · have hb : alookup c7WitState.activeSubscribers sess = none := by
        have hne : ("s" == sess) = false := beq_eq_false_iff_ne.mpr (fun he => h he.symm)
        simp [c7WitState, alookup_cons, hne, alookup]
      simp [getSubscribers, hb]

end FastPort

namespace FastPort

/-! ## C2 — deliveries flow only through the publishing session's index -/

/-- C2 (amended).  Both the initial fan-out of `handlePublish` and every
`retryMessage` redelivery send `message` frames only to members of the
publishing session's own `(session, topic)` subscriber snapshot.  Hence a
connection subscribed to the topic under a different session B receives
nothing — UNLESS it is also a member of the (A, topic) snapshot, which is
reachable by re-running `init` for B without unsubscribing (the
counterexample); for a connection not in the (A, topic) snapshot nothing is
ever delivered. -/
theorem c2_delivery_only_to_own_session_subscribers :
    (∀ st self conn A B topic data hash ts mid c,
      getConn st self = some conn → conn.clientSession = some A → A ≠ B → c ≠ self →
      c ∈ getSubscribers st B topic → c ∉ getSubscribers st A topic →
      sentTo (handlePublish st self topic data hash ts mid) c = sentTo st c) ∧
    (∀ st s t mid c, c ∉ getSubscribers st s t →
      sentTo (retryMessage st s t mid) c = sentTo st c) := by
  constructor
  · intro st self conn A B topic data hash ts mid c hc hs hAB hcself hB hA
    unfold handlePublish
    simp only [hc, hs]
    split
    · exact sentTo_sendTo_ne st self c _ (fun he => hcself he.symm)
    · split
      · exact sentTo_sendTo_ne st self c _ (fun he => hcself he.symm)
      · rename_i session hses hsusp
        set dests := (getSubscribers st A topic).filter
          (fun x => x != self && connReadyState st x == 1) with hdests
        set st1 := sendAll st dests (.message topic data hash ts mid none) with hst1
        set st2 := cacheMessage st1 A topic mid ⟨data, hash, ts, topic, "publish"⟩ session
          with hst2
        have hcd : c ∉ dests := fun hmem => hA (List.mem_of_mem_filter hmem)
        have hsent3 : (if dests.length > 0 then scheduleRetry st2 A topic mid session
            else removeMessage st2 A topic mid).sent = st1.sent := by
          split
          · rw [scheduleRetry_sent]; rfl
          · rw [removeMessage_sent]; rfl
        rw [sentTo_sendTo_ne _ self c _ (fun he => hcself he.symm),
          sentTo_eq_of_sent_eq (fcmBlock_sent _ _ _ _ _) c,
          sentTo_eq_of_sent_eq hsent3 c, hst1,
          sentTo_sendAll_not_mem st dests _ c hcd]
  · intro st s t mid c hnc
    unfold retryMessage
    split
    · rfl
    · split
      · exact sentTo_eq_of_sent_eq (removeMessage_sent _ _ _ _) c
      · split
        · exact sentTo_eq_of_sent_eq (removeMessage_sent _ _ _ _) c
        · rename_i msg hm0 oses session hses hsusp
          set dests := (getSubscribers st s t).filter (fun x => connReadyState st x == 1)
            with hdests
          set st1 := sendAll st dests (.message t msg.data msg.hash msg.timestamp mid
            (some msg.retryCount)) with hst1
          have hcd : c ∉ dests := fun hmem => hnc (List.mem_of_mem_filter hmem)
          have hsent : (if dests.length > 0 then scheduleRetry st1 s t mid session
              else removeMessage st1 s t mid).sent = st1.sent := by
            split
            · rw [scheduleRetry_sent]
            · rw [removeMessage_sent]
          rw [sentTo_eq_of_sent_eq hsent c, hst1,
            sentTo_sendAll_not_mem st dests _ c hcd]

/-- State for the C2 witness: sessions A and B, connection 1 subscribed to t
under A, connection 2 subscribed to t under B, publisher 0 on A. -/
def c2WitState : BrokerState :=
  { sessions := [("A", ⟨"A", "pw", "ka", 5000, 100, none, none, false, false⟩),
      ("B", ⟨"B", "pw", "kb", 5000, 100, none, none, false, false⟩)],
    messages := [], retryTimers := [], pending := [], nextTimerId := 0,
    activeSubscribers := [("A", [("t", [1])]), ("B", [("t", [2])])], userConnections := [],
    conns := [(0, ⟨some "A", none, 1, [], []⟩), (1, ⟨some "A", none, 1, ["t"], []⟩),
      (2, ⟨some "B", none, 1, ["t"], []⟩)],
    deviceTokens := [], now := 0, sent := [], fcmPushes := [] }

/-- Witness for C2 (amended): the publish on (A, t) and a retry of an
A-message deliver nothing to connection 2, which subscribes t only under B. -/
theorem c2_delivery_only_to_own_session_subscribers_witness :
    sentTo (handlePublish c2WitState 0 "t" "d" "h" 0 "m") 2 = sentTo c2WitState 2 ∧
    sentTo (retryMessage c2WitState "A" "t" "m") 2 = sentTo c2WitState 2 := by
  constructor
  · exact c2_delivery_only_to_own_session_subscribers.1 c2WitState 0
      ⟨some "A", none, 1, [], []⟩ "A" "B" "t" "d" "h" 0 "m" 2
      (by rfl) rfl (by decide) (by decide) (by decide) (by decide)
  · exact c2_delivery_only_to_own_session_subscribers.2 c2WitState "A" "t" "m" 2 (by decide)

end FastPort

namespace FastPort

/-! ## Component projections of the remaining operations -/

@[simp] theorem sendTo_sessions (st : BrokerState) (d : Nat) (fr : Frame) :
    (sendTo st d fr).sessions = st.sessions := rfl

@[simp] theorem sendTo_activeSubscribers (st : BrokerState) (d : Nat) (fr : Frame) :
    (sendTo st d fr).activeSubscribers = st.activeSubscribers := rfl

@[simp] theorem sendAll_sessions (st : BrokerState) (ds : List Nat) (fr : Frame) :
    (sendAll st ds fr).sessions = st.sessions := rfl

@[simp] theorem sendAll_activeSubscribers (st : BrokerState) (ds : List Nat) (fr : Frame) :
    (sendAll st ds fr).activeSubscribers = st.activeSubscribers := rfl

@[simp] theorem cacheMessage_sessions (st : BrokerState) (s t mid : String)
    (md : MessageData) (ses : Session) :
    (cacheMessage st s t mid md ses).sessions = st.sessions := rfl

@[simp] theorem cacheMessage_activeSubscribers (st : BrokerState) (s t mid : String)
    (md : MessageData) (ses : Session) :
    (cacheMessage st s t mid md ses).activeSubscribers = st.activeSubscribers := rfl

@[simp] theorem setConn_messages (st : BrokerState) (c : Nat) (cn : Conn) :
    (setConn st c cn).messages = st.messages := rfl

@[simp] theorem setConn_pending (st : BrokerState) (c : Nat) (cn : Conn) :
    (setConn st c cn).pending = st.pending := rfl

@[simp] theorem setConn_sessions (st : BrokerState) (c : Nat) (cn : Conn) :
    (setConn st c cn).sessions = st.sessions := rfl

@[simp] theorem setConn_sent (st : BrokerState) (c : Nat) (cn : Conn) :
    (setConn st c cn).sent = st.sent := rfl

@[simp] theorem setConn_activeSubscribers (st : BrokerState) (c : Nat) (cn : Conn) :
    (setConn st c cn).activeSubscribers = st.activeSubscribers := rfl

theorem removeMessage_activeSubscribers (st : BrokerState) (s t mid : String) :
    (removeMessage st s t mid).activeSubscribers = st.activeSubscribers := by
  simp only [removeMessage]
  split <;> rfl

theorem scheduleRetry_activeSubscribers (st : BrokerState) (s t mid : String) (ses : Session) :
    (scheduleRetry st s t mid ses).activeSubscribers = st.activeSubscribers := by
  simp only [scheduleRetry]
  split
  · rfl
  · split
    · exact removeMessage_activeSubscribers st s t mid
    · split
      · exact removeMessage_activeSubscribers st s t mid
      · rfl

theorem fcmBlock_activeSubscribers (st : BrokerState) (sess : String) (ses : Session)
    (t mid : String) : (fcmBlock st sess ses t mid).activeSubscribers =
      st.activeSubscribers := by
  simp only [fcmBlock]
  split <;> rfl

theorem fcmBlock_conns (st : BrokerState) (sess : String) (ses : Session) (t mid : String) :
    (fcmBlock st sess ses t mid).conns = st.conns := by
  simp only [fcmBlock]
  split <;> rfl

theorem removeMessage_conns (st : BrokerState) (s t mid : String) :
    (removeMessage st s t mid).conns = st.conns := by
  simp only [removeMessage]
  split <;> rfl

theorem scheduleRetry_conns (st : BrokerState) (s t mid : String) (ses : Session) :
    (scheduleRetry st s t mid ses).conns = st.conns := by
  simp only [scheduleRetry]
  split
  · rfl
  · split
    · exact removeMessage_conns st s t mid
    · split
      · exact removeMessage_conns st s t mid
      · rfl

/-! ### handlePublish and retryMessage: sessions and subscriber index -/

theorem handlePublish_sessions (st : BrokerState) (self : Nat) (topic data hash : String)
    (ts : Nat) (mid : String) :
    (handlePublish st self topic data hash ts mid).sessions = st.sessions := by
  unfold handlePublish
  split
  · rfl
  · split
    · rfl
    · split
      · rfl
      · split
        · rfl
        · try dsimp only
          rw [sendTo_sessions, fcmBlock_sessions]
          split
          · rw [scheduleRetry_sessions]; rfl
          · rw [removeMessage_sessions]; rfl

theorem handlePublish_activeSubscribers (st : BrokerState) (self : Nat)
    (topic data hash : String) (ts : Nat) (mid : String) :
    (handlePublish st self topic data hash ts mid).activeSubscribers =
      st.activeSubscribers := by
  unfold handlePublish
  split
  · rfl
  · split
    · rfl
    · split
      · rfl
      · split
        · rfl
        · try dsimp only
          rw [sendTo_activeSubscribers, fcmBlock_activeSubscribers]
          split
          · rw [scheduleRetry_activeSubscribers]; rfl
          · rw [removeMessage_activeSubscribers]; rfl

theorem retryMessage_sessions (st : BrokerState) (s t mid : String) :
    (retryMessage st s t mid).sessions = st.sessions := by
  unfold retryMessage
  split
  · rfl
  · split
    · exact removeMessage_sessions st s t mid
    · split
      · exact removeMessage_sessions st s t mid
      · try dsimp only
        split
        · rw [scheduleRetry_sessions]; rfl
        · rw [removeMessage_sessions]; rfl

theorem retryMessage_activeSubscribers (st : BrokerState) (s t mid : String) :
    (retryMessage st s t mid).activeSubscribers = st.activeSubscribers := by
  unfold retryMessage
  split
  · rfl
  · split
    · exact removeMessage_activeSubscribers st s t mid
    · split
      · exact removeMessage_activeSubscribers st s t mid
      · try dsimp only
        split
        · rw [scheduleRetry_activeSubscribers]; rfl
        · rw [removeMessage_activeSubscribers]; rfl

/-! ### The quiet handlers leave storage, timers and sessions alone -/

theorem handleInit_quiet (st : BrokerState) (self : Nat) (sn pw : String)
    (uid : Option String) :
    (handleInit st self sn pw uid).messages = st.messages ∧
    (handleInit st self sn pw uid).pending = st.pending ∧
    (handleInit st self sn pw uid).sessions = st.sessions ∧
    (handleInit st self sn pw uid).activeSubscribers = st.activeSubscribers := by
  unfold handleInit
  split
  · exact ⟨rfl, rfl, rfl, rfl⟩
  · split
    · exact ⟨rfl, rfl, rfl, rfl⟩
    · try dsimp only
      split <;> exact ⟨rfl, rfl, rfl, rfl⟩

theorem handleSubscribe_quiet (st : BrokerState) (self : Nat) (topic : String) :
    (handleSubscribe st self topic).messages = st.messages ∧
    (handleSubscribe st self topic).pending = st.pending ∧
    (handleSubscribe st self topic).sessions = st.sessions := by
  unfold handleSubscribe
  split
  · exact ⟨rfl, rfl, rfl⟩
  · split <;> exact ⟨rfl, rfl, rfl⟩

theorem handleUnsubscribe_quiet (st : BrokerState) (self : Nat) (topic : String) :
    (handleUnsubscribe st self topic).messages = st.messages ∧
    (handleUnsubscribe st self topic).pending = st.pending ∧
    (handleUnsubscribe st self topic).sessions = st.sessions := by
  unfold handleUnsubscribe
  split
  · exact ⟨rfl, rfl, rfl⟩
  · split
    · exact ⟨rfl, rfl, rfl⟩
    · unfold unsubscribe
      split
      · exact ⟨rfl, rfl, rfl⟩
      · split <;> exact ⟨rfl, rfl, rfl⟩

theorem handleBinaryMessage_quiet (st : BrokerState) (self : Nat) (b : BinMsg) :
    (handleBinaryMessage st self b).messages = st.messages ∧
    (handleBinaryMessage st self b).pending = st.pending ∧
    (handleBinaryMessage st self b).sessions = st.sessions ∧
    (handleBinaryMessage st self b).activeSubscribers = st.activeSubscribers := by
  unfold handleBinaryMessage
  split
  · exact ⟨rfl, rfl, rfl, rfl⟩
  · split
    · exact ⟨rfl, rfl, rfl, rfl⟩
    · split
      · exact ⟨rfl, rfl, rfl, rfl⟩
      · split
        · exact ⟨rfl, rfl, rfl, rfl⟩
        · split <;> exact ⟨rfl, rfl, rfl, rfl⟩

theorem handleFileSignal_quiet (st : BrokerState) (self : Nat) (sig topic fid : String) :
    (handleFileSignal st self sig topic fid).messages = st.messages ∧
    (handleFileSignal st self sig topic fid).pending = st.pending ∧
    (handleFileSignal st self sig topic fid).sessions = st.sessions ∧
    (handleFileSignal st self sig topic fid).activeSubscribers = st.activeSubscribers := by
  unfold handleFileSignal
  split
  · exact ⟨rfl, rfl, rfl, rfl⟩
  · split
    · exact ⟨rfl, rfl, rfl, rfl⟩
    · split
      · exact ⟨rfl, rfl, rfl, rfl⟩
      · split
        · exact ⟨rfl, rfl, rfl, rfl⟩
        · by_cases hinit : sig = "init_file" <;> by_cases hend : sig = "end_file" <;>
            (split <;> simp [hinit, hend])

theorem handleFCMTokenRegistration_quiet (st : BrokerState) (self : Nat)
    (u e h : String) (p : Option (String × String × String)) :
    (handleFCMTokenRegistration st self u e h p).messages = st.messages ∧
    (handleFCMTokenRegistration st self u e h p).pending = st.pending ∧
    (handleFCMTokenRegistration st self u e h p).sessions = st.sessions ∧
    (handleFCMTokenRegistration st self u e h p).activeSubscribers =
      st.activeSubscribers := by
  unfold handleFCMTokenRegistration
  split
  · exact ⟨rfl, rfl, rfl, rfl⟩
  · split
    · exact ⟨rfl, rfl, rfl, rfl⟩
    · split
      · exact ⟨rfl, rfl, rfl, rfl⟩
      · split
        · exact ⟨rfl, rfl, rfl, rfl⟩
        · split <;> exact ⟨rfl, rfl, rfl, rfl⟩

theorem foldl_unsubscribe_quiet (ts : List String) (sess : String) (ws : Nat)
    (acc : BrokerState) :
    (ts.foldl (fun a t => unsubscribe a sess t ws) acc).messages = acc.messages ∧
    (ts.foldl (fun a t => unsubscribe a sess t ws) acc).pending = acc.pending ∧
    (ts.foldl (fun a t => unsubscribe a sess t ws) acc).sessions = acc.sessions ∧
    (ts.foldl (fun a t => unsubscribe a sess t ws) acc).sent = acc.sent := by
  induction ts generalizing acc with
  | nil => exact ⟨rfl, rfl, rfl, rfl⟩
  | cons t rest ih =>
    have hq : (unsubscribe acc sess t ws).messages = acc.messages ∧
        (unsubscribe acc sess t ws).pending = acc.pending ∧
        (unsubscribe acc sess t ws).sessions = acc.sessions ∧
        (unsubscribe acc sess t ws).sent = acc.sent := by
      unfold unsubscribe
      split
      · exact ⟨rfl, rfl, rfl, rfl⟩
      · split <;> exact ⟨rfl, rfl, rfl, rfl⟩
    obtain ⟨h1, h2, h3, h4⟩ := ih (unsubscribe acc sess t ws)
    rw [List.foldl_cons]
    exact ⟨h1.trans hq.1, h2.trans hq.2.1, h3.trans hq.2.2.1, h4.trans hq.2.2.2⟩

theorem unregisterUserConnection_quiet (st : BrokerState) (s u : String) :
    (unregisterUserConnection st s u).messages = st.messages ∧
    (unregisterUserConnection st s u).pending = st.pending ∧
    (unregisterUserConnection st s u).sessions = st.sessions ∧
    (unregisterUserConnection st s u).sent = st.sent := by
  unfold unregisterUserConnection
  split <;> exact ⟨rfl, rfl, rfl, rfl⟩

theorem closeConn_quiet (st : BrokerState) (self : Nat) :
    (closeConn st self).messages = st.messages ∧
    (closeConn st self).pending = st.pending ∧
    (closeConn st self).sessions = st.sessions ∧
    (closeConn st self).sent = st.sent := by
  unfold closeConn
  split
  · exact ⟨rfl, rfl, rfl, rfl⟩
  · rename_i conn hconn
    try dsimp only
    split
    · exact ⟨rfl, rfl, rfl, rfl⟩
    · rename_i sess hsess
      try dsimp only
      split
      · rename_i u hu
        obtain ⟨f1, f2, f3, f4⟩ := foldl_unsubscribe_quiet conn.clientSubscriptions sess self
          (unregisterUserConnection (setConn st self { conn with readyState := 3 }) sess u)
        obtain ⟨g1, g2, g3, g4⟩ := unregisterUserConnection_quiet
          (setConn st self { conn with readyState := 3 }) sess u
        exact ⟨f1.trans g1, f2.trans g2, f3.trans g3, f4.trans g4⟩
      · exact foldl_unsubscribe_quiet conn.clientSubscriptions sess self
          (setConn st self { conn with readyState := 3 })

theorem handleAck_cases (st : BrokerState) (self : Nat) (topic mid : String) :
    handleAck st self topic mid = st ∨
    ∃ sess, handleAck st self topic mid = removeMessage st sess topic mid := by
  unfold handleAck
  split
  · exact Or.inl rfl
  · split
    · exact Or.inl rfl
    · rename_i sess hsess
      exact Or.inr ⟨sess, rfl⟩

end FastPort

namespace FastPort

/-! ## Global invariants: duplicate-free subscriber lists, bounded limits -/

/-- Every subscriber snapshot is duplicate-free. -/
def SubsNodup (st : BrokerState) : Prop := ∀ s t, (getSubscribers st s t).Nodup

/-- Every stored session's retry ceiling is bounded by `L`. -/
def SessBound (L : Nat) (st : BrokerState) : Prop :=
  ∀ s ses, alookup st.sessions s = some ses → ses.maxRetryLimit ≤ L

/-- Sessions an event may create have their retry ceiling bounded by `L`. -/
def eventLimitBounded (L : Nat) : Event → Prop
  | .adminCreate args _ => jsOr args.maxRetryLimit 100 ≤ L
  | _ => True

/-- Is this event a publish of messageId `m`? -/
def isPublishOf (m : String) : Event → Bool
  | .text _ (.publish _ _ _ _ mid) => mid == m
  | _ => false

theorem getSubscribers_congr {st1 st2 : BrokerState}
    (h : st2.activeSubscribers = st1.activeSubscribers) (s t : String) :
    getSubscribers st2 s t = getSubscribers st1 s t := by
  simp [getSubscribers, h]

theorem SubsNodup_of_eq {st1 st2 : BrokerState}
    (h : st2.activeSubscribers = st1.activeSubscribers) (hn : SubsNodup st1) :
    SubsNodup st2 := fun s t => (getSubscribers_congr h s t) ▸ hn s t

theorem SessBound_of_eq {L : Nat} {st1 st2 : BrokerState}
    (h : st2.sessions = st1.sessions) (hb : SessBound L st1) : SessBound L st2 :=
  fun s ses hl => hb s ses (h ▸ hl)

theorem alookup_aset_cases {κ α : Type} [BEq κ] [LawfulBEq κ] [DecidableEq κ]
    (l : List (κ × α)) (k k' : κ) (v : α) :
    alookup (aset l k v) k' = if k' = k then some v else alookup l k' := by
  by_cases h : k' = k
  · subst h; simp [alookup_aset_self]
  · simp [h, alookup_aset_ne _ _ _ _ h]

theorem alookup_aerase_cases {κ α : Type} [BEq κ] [LawfulBEq κ] [DecidableEq κ]
    (l : List (κ × α)) (k k' : κ) :
    alookup (aerase l k) k' = if k' = k then none else alookup l k' := by
  by_cases h : k' = k
  · subst h; simp [alookup_aerase_self]
  · simp [h, alookup_aerase_ne _ _ _ h]

theorem subscribe_activeSubscribers (st : BrokerState) (s t : String) (ws : Nat) :
    (subscribe st s t ws).activeSubscribers =
      aset st.activeSubscribers s (aset ((alookup st.activeSubscribers s).getD []) t
        (if ws ∈ (alookup ((alookup st.activeSubscribers s).getD []) t).getD []
         then (alookup ((alookup st.activeSubscribers s).getD []) t).getD []
         else (alookup ((alookup st.activeSubscribers s).getD []) t).getD [] ++ [ws])) := rfl

theorem getSubscribers_subscribe_other (st : BrokerState) (s t : String) (ws : Nat)
    (s' t' : String) (h : s' ≠ s ∨ t' ≠ t) :
    getSubscribers (subscribe st s t ws) s' t' = getSubscribers st s' t' := by
  rw [getSubscribers_eq_getD, getSubscribers_eq_getD, subscribe_activeSubscribers]
  rcases h with h | h
  · rw [alookup_aset_ne _ _ _ _ h]
  · by_cases hs : s' = s
    · subst hs
      rw [alookup_aset_self, Option.getD_some, alookup_aset_ne _ _ _ _ h]
    · rw [alookup_aset_ne _ _ _ _ hs]

theorem SubsNodup_subscribe (st : BrokerState) (s t : String) (ws : Nat)
    (hn : SubsNodup st) : SubsNodup (subscribe st s t ws) := by
  intro s' t'
  by_cases hs : s' = s
  · by_cases ht : t' = t
    · subst hs; subst ht
      rw [subscribe_getSubscribers]
      by_cases hmem : ws ∈ getSubscribers st s' t'
      · simpa [hmem] using hn s' t'
      · simp only [hmem, ite_false]
        simp [List.nodup_append, hn s' t', hmem]
    · rw [getSubscribers_subscribe_other st s t ws s' t' (Or.inr ht)]
      exact hn s' t'
  · rw [getSubscribers_subscribe_other st s t ws s' t' (Or.inl hs)]
    exact hn s' t'

theorem SubsNodup_unsubscribe (st : BrokerState) (s t : String) (ws : Nat)
    (hn : SubsNodup st) : SubsNodup (unsubscribe st s t ws) := by
  unfold unsubscribe
  split
  · exact hn
  · split
    · exact hn
    · rename_i x1 topics htopics x2 subs hsubs
      intro s' t'
      rw [getSubscribers_eq_getD]
      show ((alookup ((alookup (aset st.activeSubscribers s
        (aset topics t (subs.filter (fun c => c != ws)))) s').getD []) t').getD []).Nodup
      rw [alookup_aset_cases]
      by_cases hs : s' = s
      · simp only [hs, ite_true, Option.getD_some]
        rw [alookup_aset_cases]
        by_cases ht : t' = t
        · simp only [ht, ite_true, Option.getD_some]
          have : subs = getSubscribers st s t := by
            unfold getSubscribers
            simp [htopics, hsubs]
          rw [this]
          exact List.Nodup.filter _ (hn s t)
        · simp only [ht, ite_false]
          have : (alookup topics t').getD [] = getSubscribers st s t' := by
            unfold getSubscribers
            simp [htopics]
          rw [this]
          exact hn s t'
      · simp only [hs, ite_false]
        rw [← getSubscribers_eq_getD]
        exact hn s' t'

theorem SubsNodup_foldl_unsubscribe (ts : List String) (sess : String) (ws : Nat)
    (acc : BrokerState) (hn : SubsNodup acc) :
    SubsNodup (ts.foldl (fun a t => unsubscribe a sess t ws) acc) := by
  induction ts generalizing acc with
  | nil => exact hn
  | cons t rest ih =>
    rw [List.foldl_cons]
    exact ih _ (SubsNodup_unsubscribe acc sess t ws hn)

theorem SubsNodup_closeConn (st : BrokerState) (self : Nat) (hn : SubsNodup st) :
    SubsNodup (closeConn st self) := by
  unfold closeConn
  split
  · exact hn
  · rename_i conn hconn
    try dsimp only
    split
    · exact SubsNodup_of_eq (by simp) hn
    · rename_i sess hsess
      try dsimp only
      split
      · exact SubsNodup_foldl_unsubscribe _ _ _ _
          (SubsNodup_of_eq (by simp [unregisterUserConnection]; split <;> rfl) hn)
      · exact SubsNodup_foldl_unsubscribe _ _ _ _ (SubsNodup_of_eq (by simp) hn)

theorem SubsNodup_set_empty (st : BrokerState) (st2 : BrokerState) (name : String)
    (h2 : st2.activeSubscribers = aset st.activeSubscribers name [])
    (hn : SubsNodup st) : SubsNodup st2 := by
  intro s t
  rw [getSubscribers_eq_getD, h2, alookup_aset_cases]
  by_cases hs : s = name
  · simp [hs, alookup]
  · simp only [hs, ite_false]
    rw [← getSubscribers_eq_getD]
    exact hn s t

theorem SubsNodup_erase (st : BrokerState) (st2 : BrokerState) (name : String)
    (h2 : st2.activeSubscribers = aerase st.activeSubscribers name)
    (hn : SubsNodup st) : SubsNodup st2 := by
  intro s t
  rw [getSubscribers_eq_getD, h2, alookup_aerase_cases]
  by_cases hs : s = name
  · simp [hs, alookup]
  · simp only [hs, ite_false]
    rw [← getSubscribers_eq_getD]
    exact hn s t

end FastPort

namespace FastPort

/-! ## Admin endpoint effects -/

@[simp] theorem clearSession_messages (st : BrokerState) (n : String) :
    (clearSession st n).messages = st.messages := rfl

@[simp] theorem clearSession_sent (st : BrokerState) (n : String) :
    (clearSession st n).sent = st.sent := rfl

@[simp] theorem clearSession_sessions (st : BrokerState) (n : String) :
    (clearSession st n).sessions = st.sessions := rfl

@[simp] theorem clearSession_activeSubscribers (st : BrokerState) (n : String) :
    (clearSession st n).activeSubscribers = st.activeSubscribers := rfl

@[simp] theorem clearSession_pending (st : BrokerState) (n : String) :
    (clearSession st n).pending =
      st.pending.filter (fun t => !((st.retryTimers.filter
        (fun p => p.1.startsWith (n ++ ":"))).map Prod.snd).contains t.id) := rfl

theorem createSession_ok_parts (st : BrokerState) (args : CreateSessionArgs) (fk : String)
    (st' : BrokerState) (res : CreateSessionResult)
    (h : createSession st args fk = .ok (st', res)) :
    st'.sessions = aset st.sessions args.sessionName
      { sessionName := args.sessionName, password := args.password, secretKey := fk,
        retryInterval := jsOr args.retryInterval 5000,
        maxRetryLimit := jsOr args.maxRetryLimit 100,
        messageExpiryTime := jsOrNull args.messageExpiryTime,
        sessionExpiry := jsOrNull args.sessionExpiry,
        suspended := false, fcmEnabled := args.fcmEnabled } ∧
    st'.activeSubscribers = aset st.activeSubscribers args.sessionName [] ∧
    st'.messages = st.messages ∧ st'.pending = st.pending ∧ st'.sent = st.sent := by
  unfold createSession at h
  split at h
  · exact absurd h (by simp)
  · split at h
    · exact absurd h (by simp)
    · have hx := Except.ok.inj h
      simp only [Prod.mk.injEq] at hx
      obtain ⟨h1, h2⟩ := hx
      rw [← h1]
      exact ⟨rfl, rfl, rfl, rfl, rfl⟩

theorem dropSession_ok_parts (st : BrokerState) (n p k : String) (st' : BrokerState)
    (h : dropSession st n p k = .ok st') :
    st'.sessions = aerase st.sessions n ∧
    (st'.activeSubscribers = st.activeSubscribers ∨
      st'.activeSubscribers = aerase st.activeSubscribers n) ∧
    st'.messages = st.messages ∧ st'.pending = st.pending ∧ st'.sent = st.sent := by
  unfold dropSession at h
  split at h
  · exact absurd h (by simp)
  · split at h
    · exact absurd h (by simp)
    · have hx := Except.ok.inj h
      rw [← hx]
      refine ⟨?_, ?_, ?_, ?_, ?_⟩
      · split <;> rfl
      · split
        · left
          rfl
        · right
          rfl
      · split <;> rfl
      · split <;> rfl
      · split <;> rfl

theorem suspendSession_ok_parts (st : BrokerState) (n p k : String) (b : Bool)
    (st' : BrokerState) (r : Bool) (h : suspendSession st n p k b = .ok (st', r)) :
    ∃ ses, alookup st.sessions n = some ses ∧
      st'.sessions = aset st.sessions n { ses with suspended := b } ∧
      st'.messages = st.messages ∧ st'.pending = st.pending ∧ st'.sent = st.sent ∧
      st'.activeSubscribers = st.activeSubscribers := by
  unfold suspendSession at h
  split at h
  · exact absurd h (by simp)
  · rename_i ses hses
    split at h
    · exact absurd h (by simp)
    · have hx := Except.ok.inj h
      simp only [Prod.mk.injEq] at hx
      obtain ⟨h1, h2⟩ := hx
      rw [← h1]
      exact ⟨ses, hses, rfl, rfl, rfl, rfl, rfl⟩


@[simp] theorem step_text (st : BrokerState) (self : Nat) (f : ClientFrame) :
    step st (.text self f) = onTextMessage st self f := rfl

@[simp] theorem step_binary (st : BrokerState) (self : Nat) (b : BinMsg) :
    step st (.binary self b) = handleBinaryMessage st self b := rfl

@[simp] theorem step_fire (st : BrokerState) (tid : Nat) :
    step st (.fire tid) =
      match st.pending.find? (fun t => t.id == tid) with
      | none => st
      | some t =>
        if st.now ≤ t.due then
          retryMessage
            { st with pending := st.pending.filter (fun u => u.id != tid), now := t.due }
            t.sessionName t.topic t.messageId
        else st := rfl

@[simp] theorem step_tick (st : BrokerState) (t : Nat) :
    step st (.tick t) = if st.now ≤ t then { st with now := t } else st := rfl

@[simp] theorem step_close (st : BrokerState) (self : Nat) :
    step st (.close self) = closeConn st self := rfl

@[simp] theorem step_adminCreate (st : BrokerState) (args : CreateSessionArgs) (fk : String) :
    step st (.adminCreate args fk) =
      match createSession st args fk with
      | .ok (st', _) => st'
      | .error _ => st := rfl

@[simp] theorem step_adminDrop (st : BrokerState) (n p k : String) :
    step st (.adminDrop n p k) =
      match dropSession st n p k with
      | .ok st' => clearSession st' n
      | .error _ => st := rfl

@[simp] theorem step_adminSuspend (st : BrokerState) (n p k : String) (b : Bool) :
    step st (.adminSuspend n p k b) =
      match suspendSession st n p k b with
      | .ok (st', _) => st'
      | .error _ => st := rfl

/-! ## Step preservation of the global invariants -/

theorem SubsNodup_step (st : BrokerState) (ev : Event) (hn : SubsNodup st) :
    SubsNodup (step st ev) := by
  cases ev with
  | text self f =>
    cases f with
    | init sn pw u =>
      exact SubsNodup_of_eq (handleInit_quiet st self sn pw u).2.2.2 hn
    | subscribe t =>
      show SubsNodup (handleSubscribe st self t)
      unfold handleSubscribe
      split
      · exact hn
      · split
        · exact SubsNodup_of_eq (by simp) hn
        · rename_i x1 conn hconn x2 sess hsess
          exact SubsNodup_of_eq (by simp) (SubsNodup_subscribe st sess t self hn)
    | unsubscribe t =>
      show SubsNodup (handleUnsubscribe st self t)
      unfold handleUnsubscribe
      split
      · exact hn
      · split
        · exact SubsNodup_of_eq (by simp) hn
        · rename_i x1 conn hconn x2 sess hsess
          exact SubsNodup_of_eq (by simp) (SubsNodup_unsubscribe st sess t self hn)
    | publish t dd hh ts mid =>
      exact SubsNodup_of_eq (handlePublish_activeSubscribers st self t dd hh ts mid) hn
    | ack t mid =>
      show SubsNodup (handleAck st self t mid)
      rcases handleAck_cases st self t mid with h | ⟨sess, h⟩
      · rw [h]; exact hn
      · rw [h]
        exact SubsNodup_of_eq (removeMessage_activeSubscribers st sess t mid) hn
    | initFile t fid =>
      exact SubsNodup_of_eq (handleFileSignal_quiet st self "init_file" t fid).2.2.2 hn
    | endFile t fid =>
      exact SubsNodup_of_eq (handleFileSignal_quiet st self "end_file" t fid).2.2.2 hn
    | registerFcmToken u e hh p =>
      exact SubsNodup_of_eq (handleFCMTokenRegistration_quiet st self u e hh p).2.2.2 hn
    | unknown => exact SubsNodup_of_eq (by simp [onTextMessage]) hn
  | binary self b =>
    exact SubsNodup_of_eq (handleBinaryMessage_quiet st self b).2.2.2 hn
  | fire tid =>
    rw [step_fire]
    split
    · exact hn
    · split
      · rename_i t0 hfind hle
        refine SubsNodup_of_eq (retryMessage_activeSubscribers _ _ _ _) ?_
        exact SubsNodup_of_eq rfl hn
      · exact hn
  | tick t =>
    rw [step_tick]
    split
    · exact SubsNodup_of_eq rfl hn
    · exact hn
  | close self => exact SubsNodup_closeConn st self hn
  | adminCreate args fk =>
    rw [step_adminCreate]
    split
    · rename_i x stp res heq
      exact SubsNodup_set_empty st stp args.sessionName
        (createSession_ok_parts st args fk stp res heq).2.1 hn
    · exact hn
  | adminDrop n p k =>
    rw [step_adminDrop]
    split
    · rename_i x stp heq
      refine SubsNodup_of_eq (clearSession_activeSubscribers stp n) ?_
      rcases (dropSession_ok_parts st n p k stp heq).2.1 with hidx | hidx
      · exact SubsNodup_of_eq hidx hn
      · exact SubsNodup_erase st stp n hidx hn
    · exact hn
  | adminSuspend n p k b =>
    rw [step_adminSuspend]
    split
    · rename_i x stp r heq
      obtain ⟨ses, _, _, _, _, _, hidx⟩ := suspendSession_ok_parts st n p k b stp r heq
      exact SubsNodup_of_eq hidx hn
    · exact hn

theorem SessBound_step (L : Nat) (st : BrokerState) (ev : Event) (hb : SessBound L st)
    (hev : eventLimitBounded L ev) : SessBound L (step st ev) := by
  cases ev with
  | text self f =>
    cases f with
    | init sn pw u =>
      exact SessBound_of_eq (handleInit_quiet st self sn pw u).2.2.1 hb
    | subscribe t =>
      exact SessBound_of_eq (handleSubscribe_quiet st self t).2.2 hb
    | unsubscribe t =>
      exact SessBound_of_eq (handleUnsubscribe_quiet st self t).2.2 hb
    | publish t dd hh ts mid =>
      exact SessBound_of_eq (handlePublish_sessions st self t dd hh ts mid) hb
    | ack t mid =>
      show SessBound L (handleAck st self t mid)
      rcases handleAck_cases st self t mid with h | ⟨sess, h⟩
      · rw [h]; exact hb
      · rw [h]; exact SessBound_of_eq (removeMessage_sessions st sess t mid) hb
    | initFile t fid =>
      exact SessBound_of_eq (handleFileSignal_quiet st self "init_file" t fid).2.2.1 hb
    | endFile t fid =>
      exact SessBound_of_eq (handleFileSignal_quiet st self "end_file" t fid).2.2.1 hb
    | registerFcmToken u e hh p =>
      exact SessBound_of_eq (handleFCMTokenRegistration_quiet st self u e hh p).2.2.1 hb
    | unknown => exact SessBound_of_eq (by simp [onTextMessage]) hb
  | binary self b =>
    exact SessBound_of_eq (handleBinaryMessage_quiet st self b).2.2.1 hb
  | fire tid =>
    rw [step_fire]
    split
    · exact hb
    · split
      · refine SessBound_of_eq (retryMessage_sessions _ _ _ _) ?_
        exact SessBound_of_eq rfl hb
      · exact hb
  | tick t =>
    rw [step_tick]
    split
    · exact SessBound_of_eq rfl hb
    · exact hb
  | close self => exact SessBound_of_eq (closeConn_quiet st self).2.2.1 hb
  | adminCreate args fk =>
    rw [step_adminCreate]
    split
    · rename_i x stp res heq
      intro s ses hl
      rw [(createSession_ok_parts st args fk stp res heq).1, alookup_aset_cases] at hl
      by_cases hs : s = args.sessionName
      · rw [if_pos hs] at hl
        have := Option.some.inj hl
        rw [← this]
        exact hev
      · rw [if_neg hs] at hl
        exact hb s ses hl
    · exact hb
  | adminDrop n p k =>
    rw [step_adminDrop]
    split
    · rename_i x stp heq
      refine SessBound_of_eq (clearSession_sessions stp n) ?_
      intro s ses hl
      rw [(dropSession_ok_parts st n p k stp heq).1, alookup_aerase_cases] at hl
      by_cases hs : s = n
      · rw [if_pos hs] at hl; exact absurd hl (by simp)
      · rw [if_neg hs] at hl
        exact hb s ses hl
    · exact hb
  | adminSuspend n p k b =>
    rw [step_adminSuspend]
    split
    · rename_i x stp r heq
      obtain ⟨ses0, hses0, hsess, _, _, _, _⟩ := suspendSession_ok_parts st n p k b stp r heq
      intro s ses hl
      rw [hsess, alookup_aset_cases] at hl
      by_cases hs : s = n
      · rw [if_pos hs] at hl
        have := Option.some.inj hl
        rw [← this]
        exact hb n ses0 hses0
      · rw [if_neg hs] at hl
        exact hb s ses hl
    · exact hb

end FastPort

namespace FastPort

/-! ## C3 support: timer lists as sublists, per-handler send accounting -/

theorem length_le_one_mem_eq {α : Type} {l : List α} {x : α}
    (hlen : l.length ≤ 1) (hx : x ∈ l) : l = [x] := by
  match l with
  | [] => cases hx
  | [a] =>
    rcases List.mem_singleton.mp hx with h
    rw [h]
  | a :: b :: rest => simp at hlen

theorem timersFor_pending_filter {st st' : BrokerState} (p : PendingTimer → Bool)
    (h : st'.pending = st.pending.filter p) (m : String) :
    timersFor st' m = (timersFor st m).filter p := by
  simp only [timersFor, h, List.filter_filter]
  exact List.filter_congr (fun t _ => by rw [Bool.and_comm])

theorem timersFor_pending_append_other {st st' : BrokerState} (tm : PendingTimer)
    (h : st'.pending = st.pending ++ [tm]) (m : String)
    (hne : (tm.messageId == m) = false) : timersFor st' m = timersFor st m := by
  simp [timersFor, h, List.filter_append, hne]

theorem msgCount_sendAll_nonmsg (st : BrokerState) (ds : List Nat) (fr : Frame)
    (m : String) (d : Nat) (h : isMessageFrameFor m fr = false) :
    msgCount (sendAll st ds fr) m d = msgCount st m d := by
  rw [msgCount_sendAll, h]
  simp

theorem removeMessage_timersFor_sublist (st : BrokerState) (s t mid m : String) :
    (timersFor (removeMessage st s t mid) m).Sublist (timersFor st m) := by
  rcases removeMessage_pending_cases st s t mid with hc | ⟨tid, hc⟩
  · rw [timersFor_eq_of_pending_eq hc]
  · rw [timersFor_pending_filter _ hc]
    exact List.filter_sublist _

theorem removeMessage_alookup_sub (st : BrokerState) (s t mid m : String)
    (msg : CachedMessage) (h : alookup (removeMessage st s t mid).messages m = some msg) :
    alookup st.messages m = some msg := by
  rw [removeMessage_messages, alookup_aerase_cases] at h
  split at h
  · cases h
  · exact h

theorem scheduleRetry_none (st : BrokerState) (s t mid : String) (ses : Session)
    (h : alookup st.messages mid = none) : scheduleRetry st s t mid ses = st := by
  simp [scheduleRetry, h]

theorem scheduleRetry_expired (st : BrokerState) (s t mid : String) (ses : Session)
    (msg : CachedMessage) (hm : alookup st.messages mid = some msg)
    (hexp : expiryHit st.now msg.expiryTime = true) :
    scheduleRetry st s t mid ses = removeMessage st s t mid := by
  simp [scheduleRetry, hm, hexp]

theorem scheduleRetry_removes_at_limit (st : BrokerState) (s t mid : String)
    (ses : Session) (msg : CachedMessage) (l : Nat)
    (hm : alookup st.messages mid = some msg)
    (hexp : expiryHit st.now msg.expiryTime = false)
    (hlim : msg.maxRetryLimit = some l) (hge : l ≤ msg.retryCount) :
    scheduleRetry st s t mid ses = removeMessage st s t mid := by
  simp [scheduleRetry, hm, hexp, hlim, hge]

theorem scheduleRetry_arm_parts (st : BrokerState) (s t mid : String)
    (ses : Session) (msg : CachedMessage) (l : Nat)
    (hm : alookup st.messages mid = some msg)
    (hexp : expiryHit st.now msg.expiryTime = false)
    (hlim : msg.maxRetryLimit = some l) (hlt : msg.retryCount < l) :
    (scheduleRetry st s t mid ses).messages =
      aset st.messages mid { msg with retryCount := msg.retryCount + 1 } ∧
    (scheduleRetry st s t mid ses).pending = st.pending ++
      [⟨st.nextTimerId, st.now + jsOr msg.retryInterval ses.retryInterval, s, t, mid⟩] ∧
    (scheduleRetry st s t mid ses).sent = st.sent := by
  have hnge : ¬ msg.retryCount ≥ l := Nat.not_le.mpr hlt
  simp only [scheduleRetry, hm, hexp, hlim, Bool.false_eq_true, if_false, hnge]
  refine ⟨?_, ?_, ?_⟩ <;> trivial

theorem scheduleRetry_alookup_other (st : BrokerState) (s t mid : String)
    (ses : Session) (m : String) (hne : m ≠ mid) :
    alookup (scheduleRetry st s t mid ses).messages m = alookup st.messages m := by
  unfold scheduleRetry
  split
  · rfl
  · split
    · rw [removeMessage_messages, alookup_aerase_ne _ _ _ hne]
    · try dsimp only
      split
      · rw [removeMessage_messages, alookup_aerase_ne _ _ _ hne]
      · exact alookup_aset_ne _ _ _ _ hne

theorem scheduleRetry_timersFor_sublist_other (st : BrokerState) (s t mid : String)
    (ses : Session) (m : String) (hne : (mid == m) = false) :
    (timersFor (scheduleRetry st s t mid ses) m).Sublist (timersFor st m) := by
  unfold scheduleRetry
  split
  · exact List.Sublist.refl _
  · split
    · exact removeMessage_timersFor_sublist st s t mid m
    · try dsimp only
      split
      · exact removeMessage_timersFor_sublist st s t mid m
      · rw [timersFor_pending_append_other ⟨st.nextTimerId, _, s, t, mid⟩ rfl m hne]

theorem msgCount_handleInit (st : BrokerState) (self : Nat) (sn pw : String)
    (uid : Option String) (m : String) (d : Nat) :
    msgCount (handleInit st self sn pw uid) m d = msgCount st m d := by
  unfold handleInit
  split
  · rfl
  · split
    · rw [msgCount_sendTo_nonmsg]
      rfl
    · try dsimp only
      split
      · rw [msgCount_sendTo_nonmsg]
        · exact msgCount_eq_of_sent_eq rfl m d
        · rfl
      · rw [msgCount_sendTo_nonmsg]
        · exact msgCount_eq_of_sent_eq rfl m d
        · rfl

theorem msgCount_handleSubscribe (st : BrokerState) (self : Nat) (topic : String)
    (m : String) (d : Nat) :
    msgCount (handleSubscribe st self topic) m d = msgCount st m d := by
  unfold handleSubscribe
  split
  · rfl
  · split
    · rw [msgCount_sendTo_nonmsg]
      rfl
    · rw [msgCount_sendTo_nonmsg]
      · exact msgCount_eq_of_sent_eq rfl m d
      · rfl

theorem msgCount_handleUnsubscribe (st : BrokerState) (self : Nat) (topic : String)
    (m : String) (d : Nat) :
    msgCount (handleUnsubscribe st self topic) m d = msgCount st m d := by
  unfold handleUnsubscribe
  split
  · rfl
  · split
    · rw [msgCount_sendTo_nonmsg]
      rfl
    · rw [msgCount_sendTo_nonmsg]
      · refine msgCount_eq_of_sent_eq ?_ m d
        show (unsubscribe st _ topic self).sent = st.sent
        unfold unsubscribe
        split
        · rfl
        · split <;> rfl
      · rfl

theorem msgCount_handleBinaryMessage (st : BrokerState) (self : Nat) (b : BinMsg)
    (m : String) (d : Nat) :
    msgCount (handleBinaryMessage st self b) m d = msgCount st m d := by
  unfold handleBinaryMessage
  split
  · rfl
  · split
    · rfl
    · split
      · rfl
      · split
        · rfl
        · split
          · rfl
          · rw [msgCount_sendAll_nonmsg]
            rfl

theorem msgCount_handleFileSignal (st : BrokerState) (self : Nat)
    (sig topic fid : String) (m : String) (d : Nat) :
    msgCount (handleFileSignal st self sig topic fid) m d = msgCount st m d := by
  unfold handleFileSignal
  split
  · rfl
  · split
    · rw [msgCount_sendTo_nonmsg]
      rfl
    · split
      · rw [msgCount_sendTo_nonmsg]
        rfl
      · split
        · rw [msgCount_sendTo_nonmsg]
          rfl
        · split
          · rw [msgCount_sendTo_nonmsg]
            rfl
          · rw [msgCount_sendAll_nonmsg]
            · refine msgCount_eq_of_sent_eq ?_ m d
              split
              · rfl
              · split <;> rfl
            · rfl

theorem msgCount_handleFCMTokenRegistration (st : BrokerState) (self : Nat)
    (u e h : String) (p : Option (String × String × String)) (m : String) (d : Nat) :
    msgCount (handleFCMTokenRegistration st self u e h p) m d = msgCount st m d := by
  unfold handleFCMTokenRegistration
  split
  · rfl
  · split
    · rw [msgCount_sendTo_nonmsg]
      rfl
    · split
      · rw [msgCount_sendTo_nonmsg]
        rfl
      · split
        · rw [msgCount_sendTo_nonmsg]
          rfl
        · split
          · rw [msgCount_sendTo_nonmsg]
            rfl
          · rw [msgCount_sendTo_nonmsg]
            · exact msgCount_eq_of_sent_eq rfl m d
            · rfl

theorem msgCount_closeConn (st : BrokerState) (self : Nat) (m : String) (d : Nat) :
    msgCount (closeConn st self) m d = msgCount st m d :=
  msgCount_eq_of_sent_eq (closeConn_quiet st self).2.2.2 m d

theorem msgCount_handlePublish_other (st : BrokerState) (self : Nat)
    (topic data hash : String) (ts : Nat) (mid m : String) (d : Nat)
    (hne : (mid == m) = false) :
    msgCount (handlePublish st self topic data hash ts mid) m d = msgCount st m d := by
  unfold handlePublish
  split
  · rfl
  · split
    · rw [msgCount_sendTo_nonmsg]
      rfl
    · split
      · rw [msgCount_sendTo_nonmsg]
        rfl
      · split
        · rw [msgCount_sendTo_nonmsg]
          rfl
        · rename_i sess hs0 osess session hses2 hsusp2
          set dests := (getSubscribers st sess topic).filter
            (fun c => c != self && connReadyState st c == 1) with hdests
          set st1 := sendAll st dests (.message topic data hash ts mid none) with hst1
          set st2 := cacheMessage st1 sess topic mid ⟨data, hash, ts, topic, "publish"⟩
            session with hst2
          have hsent3 : (if dests.length > 0 then scheduleRetry st2 sess topic mid session
              else removeMessage st2 sess topic mid).sent = st1.sent := by
            split
            · rw [scheduleRetry_sent]
              rfl
            · rw [removeMessage_sent]
              rfl
          rw [msgCount_sendTo_nonmsg _ _ (.publishResponse true (some mid)
              (some dests.length) none) m d rfl,
            msgCount_eq_of_sent_eq (fcmBlock_sent _ _ _ _ _),
            msgCount_eq_of_sent_eq hsent3, hst1, msgCount_sendAll_nonmsg]
          show (mid == m) = false
          exact hne

theorem handlePublish_alookup_other (st : BrokerState) (self : Nat)
    (topic data hash : String) (ts : Nat) (mid m : String) (hne : m ≠ mid) :
    alookup (handlePublish st self topic data hash ts mid).messages m =
      alookup st.messages m := by
  unfold handlePublish
  split
  · rfl
  · split
    · rfl
    · split
      · rfl
      · split
        · rfl
        · rename_i sess hs0 osess session hses2 hsusp2
          set dests := (getSubscribers st sess topic).filter
            (fun c => c != self && connReadyState st c == 1) with hdests
          set st1 := sendAll st dests (.message topic data hash ts mid none) with hst1
          set st2 := cacheMessage st1 sess topic mid ⟨data, hash, ts, topic, "publish"⟩
            session with hst2
          have hmsg3 : alookup (if dests.length > 0 then
                scheduleRetry st2 sess topic mid session
              else removeMessage st2 sess topic mid).messages m =
              alookup st2.messages m := by
            split
            · exact scheduleRetry_alookup_other st2 sess topic mid session m hne
            · rw [removeMessage_messages, alookup_aerase_ne _ _ _ hne]
          rw [sendTo_messages, fcmBlock_messages, hmsg3, hst2, cacheMessage_messages,
            alookup_aset_ne _ _ _ _ hne, hst1, sendAll_messages]

theorem handlePublish_timersFor_sublist (st : BrokerState) (self : Nat)
    (topic data hash : String) (ts : Nat) (mid m : String) (hne : (mid == m) = false) :
    (timersFor (handlePublish st self topic data hash ts mid) m).Sublist
      (timersFor st m) := by
  unfold handlePublish
  split
  · exact List.Sublist.refl _
  · split
    · rw [timersFor_eq_of_pending_eq (sendTo_pending st self _) m]
    · split
      · rw [timersFor_eq_of_pending_eq (sendTo_pending st self _) m]
      · split
        · rw [timersFor_eq_of_pending_eq (sendTo_pending st self _) m]
        · rename_i sess hs0 osess session hses2 hsusp2
          set dests := (getSubscribers st sess topic).filter
            (fun c => c != self && connReadyState st c == 1) with hdests
          set st1 := sendAll st dests (.message topic data hash ts mid none) with hst1
          set st2 := cacheMessage st1 sess topic mid ⟨data, hash, ts, topic, "publish"⟩
            session with hst2
          set st3 := (if dests.length > 0 then scheduleRetry st2 sess topic mid session
            else removeMessage st2 sess topic mid) with hst3
          have hp : (sendTo (fcmBlock st3 sess session topic mid) self
              (.publishResponse true (some mid) (some dests.length) none)).pending =
              st3.pending := by
            rw [sendTo_pending, fcmBlock_pending]
          rw [timersFor_eq_of_pending_eq hp m]
          have hsub : (timersFor st3 m).Sublist (timersFor st2 m) := by
            rw [hst3]
            split
            · exact scheduleRetry_timersFor_sublist_other st2 sess topic mid session m hne
            · exact removeMessage_timersFor_sublist st2 sess topic mid m
          refine hsub.trans ?_
          have hp2 : st2.pending = st.pending := by
            rw [hst2, cacheMessage_pending, hst1, sendAll_pending]
          rw [timersFor_eq_of_pending_eq hp2 m]

theorem msgCount_retryMessage_other (st : BrokerState) (s t mid : String)
    (m : String) (d : Nat) (hne : (mid == m) = false) :
    msgCount (retryMessage st s t mid) m d = msgCount st m d := by
  unfold retryMessage
  split
  · rfl
  · split
    · exact msgCount_eq_of_sent_eq (removeMessage_sent st s t mid) m d
    · split
      · exact msgCount_eq_of_sent_eq (removeMessage_sent st s t mid) m d
      · try dsimp only
        split
        · rw [msgCount_eq_of_sent_eq (scheduleRetry_sent _ s t mid _) m d,
            msgCount_sendAll_nonmsg]
          show (mid == m) = false
          exact hne
        · rw [msgCount_eq_of_sent_eq (removeMessage_sent _ s t mid) m d,
            msgCount_sendAll_nonmsg]
          show (mid == m) = false
          exact hne

theorem retryMessage_alookup_other (st : BrokerState) (s t mid : String)
    (m : String) (hne : m ≠ mid) :
    alookup (retryMessage st s t mid).messages m = alookup st.messages m := by
  unfold retryMessage
  split
  · rfl
  · split
    · rw [removeMessage_messages, alookup_aerase_ne _ _ _ hne]
    · split
      · rw [removeMessage_messages, alookup_aerase_ne _ _ _ hne]
      · try dsimp only
        split
        · rw [scheduleRetry_alookup_other _ s t mid _ m hne, sendAll_messages]
        · rw [removeMessage_messages, alookup_aerase_ne _ _ _ hne, sendAll_messages]

theorem retryMessage_timersFor_sublist_other (st : BrokerState) (s t mid : String)
    (m : String) (hne : (mid == m) = false) :
    (timersFor (retryMessage st s t mid) m).Sublist (timersFor st m) := by
  unfold retryMessage
  split
  · exact List.Sublist.refl _
  · split
    · exact removeMessage_timersFor_sublist st s t mid m
    · split
      · exact removeMessage_timersFor_sublist st s t mid m
      · try dsimp only
        split
        · refine (scheduleRetry_timersFor_sublist_other _ s t mid _ m hne).trans ?_
          rw [timersFor_eq_of_pending_eq (sendAll_pending st _ _) m]
        · refine (removeMessage_timersFor_sublist _ s t mid m).trans ?_
          rw [timersFor_eq_of_pending_eq (sendAll_pending st _ _) m]

end FastPort

namespace FastPort

/-! ## C3: per-message counting invariants -/

/-- Pre-publish invariant for messageId `m` and observer `d`: no armed timer,
no `message` frame sent yet. -/
def MsgInvNP (m : String) (d : Nat) (st : BrokerState) : Prop :=
  timersFor st m = [] ∧ msgCount st m d = 0

/-- Post-publish invariant: at most one armed timer for `m`, the count is
within the ceiling, and while a timer is armed the stored copy's bumped
`retryCount` (bounded by its captured `maxRetryLimit`, itself at most `L`)
dominates the count. -/
def MsgInvP (L : Nat) (m : String) (d : Nat) (st : BrokerState) : Prop :=
  (timersFor st m).length ≤ 1 ∧ msgCount st m d ≤ 1 + L ∧
  ∀ msg, alookup st.messages m = some msg → timersFor st m ≠ [] →
    ∃ l, msg.maxRetryLimit = some l ∧ l ≤ L ∧ msg.retryCount ≤ l ∧
      msgCount st m d ≤ msg.retryCount

theorem MsgInvP_of_NP (L : Nat) (m : String) (d : Nat) (st : BrokerState)
    (h : MsgInvNP m d st) : MsgInvP L m d st := by
  obtain ⟨hT, hC⟩ := h
  refine ⟨by rw [hT]; simp, by rw [hC]; omega, ?_⟩
  intro msg hmm hne
  exact absurd hT hne

theorem MsgInvP_mono {L : Nat} {m : String} {d : Nat} {st st' : BrokerState}
    (hms : ∀ msg, alookup st'.messages m = some msg → alookup st.messages m = some msg)
    (htm : (timersFor st' m).Sublist (timersFor st m))
    (hcnt : msgCount st' m d = msgCount st m d)
    (hP : MsgInvP L m d st) : MsgInvP L m d st' := by
  obtain ⟨h1, h2, h3⟩ := hP
  refine ⟨htm.length_le.trans h1, hcnt ▸ h2, ?_⟩
  intro msg hmm hne
  have hne0 : timersFor st m ≠ [] := by
    intro h0
    rw [h0] at htm
    exact hne (List.sublist_nil.mp htm)
  obtain ⟨l, ha, hb, hc, he⟩ := h3 msg (hms msg hmm) hne0
  exact ⟨l, ha, hb, hc, hcnt ▸ he⟩

theorem MsgInvNP_mono {m : String} {d : Nat} {st st' : BrokerState}
    (htm : (timersFor st' m).Sublist (timersFor st m))
    (hcnt : msgCount st' m d = msgCount st m d)
    (hNP : MsgInvNP m d st) : MsgInvNP m d st' := by
  constructor
  · rw [hNP.1] at htm
    exact List.sublist_nil.mp htm
  · rw [hcnt, hNP.2]

theorem timersFor_pending_append_self {st st' : BrokerState} (tm : PendingTimer)
    (h : st'.pending = st.pending ++ [tm]) (m : String)
    (heq : (tm.messageId == m) = true) : timersFor st' m = timersFor st m ++ [tm] := by
  simp [timersFor, h, List.filter_append, heq]

theorem effects_of_eq {st st' : BrokerState} {m : String} {d : Nat}
    (hm : st'.messages = st.messages) (hp : st'.pending = st.pending)
    (hc : msgCount st' m d = msgCount st m d) :
    (∀ msg, alookup st'.messages m = some msg → alookup st.messages m = some msg) ∧
    (timersFor st' m).Sublist (timersFor st m) ∧
    msgCount st' m d = msgCount st m d := by
  refine ⟨fun msg h => by rwa [hm] at h, ?_, hc⟩
  rw [timersFor_eq_of_pending_eq hp m]

theorem handleAck_effects (st : BrokerState) (self : Nat) (t mid m : String) (d : Nat) :
    (∀ msg, alookup (handleAck st self t mid).messages m = some msg →
      alookup st.messages m = some msg) ∧
    (timersFor (handleAck st self t mid) m).Sublist (timersFor st m) ∧
    msgCount (handleAck st self t mid) m d = msgCount st m d := by
  rcases handleAck_cases st self t mid with h | ⟨sess, h⟩ <;> rw [h]
  · exact ⟨fun msg hm => hm, List.Sublist.refl _, rfl⟩
  · exact ⟨fun msg hm => removeMessage_alookup_sub st sess t mid m msg hm,
      removeMessage_timersFor_sublist st sess t mid m,
      msgCount_eq_of_sent_eq (removeMessage_sent st sess t mid) m d⟩

theorem retryMessage_effects_other (st : BrokerState) (s t mid m : String) (d : Nat)
    (hne : (mid == m) = false) :
    (∀ msg, alookup (retryMessage st s t mid).messages m = some msg →
      alookup st.messages m = some msg) ∧
    (timersFor (retryMessage st s t mid) m).Sublist (timersFor st m) ∧
    msgCount (retryMessage st s t mid) m d = msgCount st m d := by
  have hmne : m ≠ mid := by
    intro h
    subst h
    simp at hne
  exact ⟨fun msg hm => by rwa [retryMessage_alookup_other st s t mid m hmne] at hm,
    retryMessage_timersFor_sublist_other st s t mid m hne,
    msgCount_retryMessage_other st s t mid m d hne⟩

/-- A non-publish-of-`m` event whose fired timer (if any) does not belong to
`m` can only erase `m`-entries, cancel `m`-timers, and leave the `m`-count
untouched. -/
theorem step_effects (st : BrokerState) (ev : Event) (m : String) (d : Nat)
    (hev : isPublishOf m ev = false)
    (hfire : ∀ tid t0, ev = .fire tid →
      st.pending.find? (fun u => u.id == tid) = some t0 → (t0.messageId == m) = false) :
    (∀ msg, alookup (step st ev).messages m = some msg →
      alookup st.messages m = some msg) ∧
    (timersFor (step st ev) m).Sublist (timersFor st m) ∧
    msgCount (step st ev) m d = msgCount st m d := by
  cases ev with
  | text self f =>
    cases f with
    | init sn pw uid =>
      exact effects_of_eq (handleInit_quiet st self sn pw uid).1
        (handleInit_quiet st self sn pw uid).2.1 (msgCount_handleInit st self sn pw uid m d)
    | subscribe topic =>
      exact effects_of_eq (handleSubscribe_quiet st self topic).1
        (handleSubscribe_quiet st self topic).2.1 (msgCount_handleSubscribe st self topic m d)
    | unsubscribe topic =>
      exact effects_of_eq (handleUnsubscribe_quiet st self topic).1
        (handleUnsubscribe_quiet st self topic).2.1
        (msgCount_handleUnsubscribe st self topic m d)
    | publish t dd hh ts mid =>
      have hbe : (mid == m) = false := hev
      have hmne : m ≠ mid := by
        intro h
        subst h
        simp at hbe
      refine ⟨?_, ?_, ?_⟩
      · intro msg hmm
        have hmm2 : alookup (handlePublish st self t dd hh ts mid).messages m = some msg :=
          hmm
        rwa [handlePublish_alookup_other st self t dd hh ts mid m hmne] at hmm2
      · exact handlePublish_timersFor_sublist st self t dd hh ts mid m hbe
      · exact msgCount_handlePublish_other st self t dd hh ts mid m d hbe
    | ack t mid =>
      exact handleAck_effects st self t mid m d
    | initFile t fid =>
      exact effects_of_eq (handleFileSignal_quiet st self "init_file" t fid).1
        (handleFileSignal_quiet st self "init_file" t fid).2.1
        (msgCount_handleFileSignal st self "init_file" t fid m d)
    | endFile t fid =>
      exact effects_of_eq (handleFileSignal_quiet st self "end_file" t fid).1
        (handleFileSignal_quiet st self "end_file" t fid).2.1
        (msgCount_handleFileSignal st self "end_file" t fid m d)
    | registerFcmToken u e hh p =>
      exact effects_of_eq (handleFCMTokenRegistration_quiet st self u e hh p).1
        (handleFCMTokenRegistration_quiet st self u e hh p).2.1
        (msgCount_handleFCMTokenRegistration st self u e hh p m d)
    | unknown =>
      exact effects_of_eq (sendTo_messages st self _) (sendTo_pending st self _)
        (msgCount_sendTo_nonmsg st self _ m d rfl)
  | binary self b =>
    exact effects_of_eq (handleBinaryMessage_quiet st self b).1
      (handleBinaryMessage_quiet st self b).2.1 (msgCount_handleBinaryMessage st self b m d)
  | fire tid =>
    rw [step_fire]
    split
    · exact ⟨fun _ hm => hm, List.Sublist.refl _, rfl⟩
    · split
      · rename_i t0 hfind hdue
        have hne := hfire tid t0 rfl hfind
        refine ⟨?_, ?_, ?_⟩
        · intro msg hmm
          exact (retryMessage_effects_other
            { st with pending := st.pending.filter (fun u => u.id != tid), now := t0.due }
            t0.sessionName t0.topic t0.messageId m d hne).1 msg hmm
        · refine ((retryMessage_effects_other _ t0.sessionName t0.topic t0.messageId m d
            hne).2.1).trans ?_
          rw [timersFor_pending_filter (fun u => u.id != tid) rfl m]
          exact List.filter_sublist _
        · rw [(retryMessage_effects_other _ t0.sessionName t0.topic t0.messageId m d
            hne).2.2]
          rfl
      · exact ⟨fun _ hm => hm, List.Sublist.refl _, rfl⟩
  | tick t =>
    rw [step_tick]
    split
    · exact ⟨fun _ hm => hm, List.Sublist.refl _, rfl⟩
    · exact ⟨fun _ hm => hm, List.Sublist.refl _, rfl⟩
  | close self =>
    exact effects_of_eq (closeConn_quiet st self).1 (closeConn_quiet st self).2.1
      (msgCount_closeConn st self m d)
  | adminCreate args fk =>
    rw [step_adminCreate]
    cases hc : createSession st args fk with
    | ok pr =>
      obtain ⟨st', res⟩ := pr
      obtain ⟨hs, ha, hm, hp, hsn⟩ := createSession_ok_parts st args fk st' res hc
      exact effects_of_eq hm hp (msgCount_eq_of_sent_eq hsn m d)
    | error e =>
      exact ⟨fun _ hm => hm, List.Sublist.refl _, rfl⟩
  | adminDrop n p k =>
    rw [step_adminDrop]
    cases hc : dropSession st n p k with
    | ok st' =>
      obtain ⟨hs, ha, hm, hp, hsn⟩ := dropSession_ok_parts st n p k st' hc
      refine ⟨?_, ?_, ?_⟩
      · intro msg hmm
        have hmm2 : alookup (clearSession st' n).messages m = some msg := hmm
        rw [clearSession_messages, hm] at hmm2
        exact hmm2
      · show (timersFor (clearSession st' n) m).Sublist (timersFor st m)
        refine List.Sublist.trans
          (?_ : (timersFor (clearSession st' n) m).Sublist (timersFor st' m)) ?_
        · rw [timersFor_pending_filter _ (clearSession_pending st' n) m]
          exact List.filter_sublist _
        · rw [timersFor_eq_of_pending_eq hp m]
      · show msgCount (clearSession st' n) m d = msgCount st m d
        rw [msgCount_eq_of_sent_eq (clearSession_sent st' n) m d,
          msgCount_eq_of_sent_eq hsn m d]
    | error e =>
      exact ⟨fun _ hm => hm, List.Sublist.refl _, rfl⟩
  | adminSuspend n p k b =>
    rw [step_adminSuspend]
    cases hc : suspendSession st n p k b with
    | ok pr =>
      obtain ⟨st', r⟩ := pr
      obtain ⟨ses, hses, hsess, hm, hp, hsn, ha⟩ := suspendSession_ok_parts st n p k b st' r hc
      exact effects_of_eq hm hp (msgCount_eq_of_sent_eq hsn m d)
    | error e =>
      exact ⟨fun _ hm => hm, List.Sublist.refl _, rfl⟩

end FastPort

namespace FastPort

theorem MsgInvNP_step (st : BrokerState) (ev : Event) (m : String) (d : Nat)
    (hev : isPublishOf m ev = false) (hNP : MsgInvNP m d st) : MsgInvNP m d (step st ev) := by
  have hfire : ∀ tid t0, ev = .fire tid →
      st.pending.find? (fun u => u.id == tid) = some t0 → (t0.messageId == m) = false := by
    intro tid t0 he hf
    cases hb : (t0.messageId == m)
    · rfl
    · exfalso
      have hmem : t0 ∈ st.pending := List.mem_of_find?_eq_some hf
      have hmemT : t0 ∈ timersFor st m := List.mem_filter.mpr ⟨hmem, hb⟩
      rw [hNP.1] at hmemT
      cases hmemT
  obtain ⟨hms, htm, hcnt⟩ := step_effects st ev m d hev hfire
  exact MsgInvNP_mono htm hcnt hNP

/-- The retry-timer callback on `m` itself, fired from a state with no armed
`m`-timer left, preserves the post-publish invariant: the redelivery adds at
most one frame per observer (duplicate-free subscriber lists), and either the
message is removed (expiry, ceiling, empty audience, dead session) or exactly
one fresh timer is armed with the bumped `retryCount` still dominating the
count. -/
theorem MsgInvP_retryMessage_self (L : Nat) (st : BrokerState) (s t m : String) (d : Nat)
    (hnd : SubsNodup st)
    (hT : timersFor st m = [])
    (hC : msgCount st m d ≤ 1 + L)
    (hmsgs : ∀ msg, alookup st.messages m = some msg →
      ∃ l, msg.maxRetryLimit = some l ∧ l ≤ L ∧ msg.retryCount ≤ l ∧
        msgCount st m d ≤ msg.retryCount) :
    MsgInvP L m d (retryMessage st s t m) := by
  unfold retryMessage
  split
  · exact ⟨by rw [hT]; simp, hC, fun msg hmm hne => absurd hT hne⟩
  · split
    · refine ⟨?_, ?_, ?_⟩
      · rw [timersFor_removeMessage_of_nil st s t m m hT]
        simp
      · rw [msgCount_eq_of_sent_eq (removeMessage_sent st s t m) m d]
        exact hC
      · intro msg hmm
        rw [removeMessage_messages, alookup_aerase_self] at hmm
        cases hmm
    · split
      · refine ⟨?_, ?_, ?_⟩
        · rw [timersFor_removeMessage_of_nil st s t m m hT]
          simp
        · rw [msgCount_eq_of_sent_eq (removeMessage_sent st s t m) m d]
          exact hC
        · intro msg hmm
          rw [removeMessage_messages, alookup_aerase_self] at hmm
          cases hmm
      · rename_i x1 message hmsg x2 session hses hsusp
        obtain ⟨l, hlim, hlL, hrc, hcnt_rc⟩ := hmsgs message hmsg
        try dsimp only
        set dests := (getSubscribers st s t).filter (fun c => connReadyState st c == 1)
          with hdests
        set st1 := sendAll st dests
          (.message t message.data message.hash message.timestamp m
            (some message.retryCount)) with hst1
        have hc1 : msgCount st1 m d ≤ msgCount st m d + 1 := by
          rw [hst1, msgCount_sendAll]
          have hlen : (dests.filter (fun x => x == d)).length ≤ 1 :=
            length_filter_beq_le_one (List.Nodup.filter _ (hnd s t)) d
          split <;> omega
        have hp1 : st1.pending = st.pending := by rw [hst1, sendAll_pending]
        have hT1 : timersFor st1 m = [] := by
          rw [timersFor_eq_of_pending_eq hp1 m]
          exact hT
        have hmsg1 : alookup st1.messages m = some message := by
          rw [hst1, sendAll_messages]
          exact hmsg
        split
        · by_cases hexp : expiryHit st1.now message.expiryTime = true
          · rw [scheduleRetry_expired st1 s t m session message hmsg1 hexp]
            refine ⟨?_, ?_, ?_⟩
            · rw [timersFor_removeMessage_of_nil st1 s t m m hT1]
              simp
            · rw [msgCount_eq_of_sent_eq (removeMessage_sent st1 s t m) m d]
              omega
            · intro msg hmm
              rw [removeMessage_messages, alookup_aerase_self] at hmm
              cases hmm
          · have hexpf : expiryHit st1.now message.expiryTime = false := by
              cases hx : expiryHit st1.now message.expiryTime
              · rfl
              · exact absurd hx hexp
            by_cases hge : l ≤ message.retryCount
            · rw [scheduleRetry_removes_at_limit st1 s t m session message l hmsg1 hexpf
                hlim hge]
              refine ⟨?_, ?_, ?_⟩
              · rw [timersFor_removeMessage_of_nil st1 s t m m hT1]
                simp
              · rw [msgCount_eq_of_sent_eq (removeMessage_sent st1 s t m) m d]
                omega
              · intro msg hmm
                rw [removeMessage_messages, alookup_aerase_self] at hmm
                cases hmm
            · have hlt : message.retryCount < l := Nat.not_le.mp hge
              obtain ⟨hm3, hp3, hs3⟩ := scheduleRetry_arm_parts st1 s t m session message l
                hmsg1 hexpf hlim hlt
              have hTS : timersFor (scheduleRetry st1 s t m session) m =
                  timersFor st1 m ++
                    [⟨st1.nextTimerId,
                      st1.now + jsOr message.retryInterval session.retryInterval, s, t, m⟩] :=
                timersFor_pending_append_self _ hp3 m (beq_self_eq_true m)
              refine ⟨?_, ?_, ?_⟩
              · rw [hTS, hT1]
                simp
              · rw [msgCount_eq_of_sent_eq hs3 m d]
                omega
              · intro msg hmm hne
                rw [hm3, alookup_aset_self] at hmm
                have hmsg_eq : msg = { message with retryCount := message.retryCount + 1 } :=
                  (Option.some.inj hmm).symm
                subst hmsg_eq
                refine ⟨l, hlim, hlL, ?_, ?_⟩
                · show message.retryCount + 1 ≤ l
                  omega
                · rw [msgCount_eq_of_sent_eq hs3 m d]
                  show msgCount st1 m d ≤ message.retryCount + 1
                  omega
        · refine ⟨?_, ?_, ?_⟩
          · rw [timersFor_removeMessage_of_nil st1 s t m m hT1]
            simp
          · rw [msgCount_eq_of_sent_eq (removeMessage_sent st1 s t m) m d]
            omega
          · intro msg hmm
            rw [removeMessage_messages, alookup_aerase_self] at hmm
            cases hmm

theorem MsgInvP_step (L : Nat) (st : BrokerState) (ev : Event) (m : String) (d : Nat)
    (hev : isPublishOf m ev = false) (hnd : SubsNodup st) (hP : MsgInvP L m d st) :
    MsgInvP L m d (step st ev) := by
  by_cases hfm : ∃ tid t0, ev = .fire tid ∧
      st.pending.find? (fun u => u.id == tid) = some t0 ∧ (t0.messageId == m) = true
  · obtain ⟨tid, t0, rfl, hfind, hbeq⟩ := hfm
    obtain ⟨h1, h2, h3⟩ := hP
    have hmem : t0 ∈ st.pending := List.mem_of_find?_eq_some hfind
    have hmemT : t0 ∈ timersFor st m := List.mem_filter.mpr ⟨hmem, hbeq⟩
    have hTeq : timersFor st m = [t0] := length_le_one_mem_eq h1 hmemT
    have hfa : (t0.id == tid) = true := by
      have h0 := List.find?_some hfind
      simpa using h0
    have htid : (t0.id != tid) = false := by simp [bne, hfa]
    have hmid : t0.messageId = m := beq_iff_eq.mp hbeq
    rw [step_fire]
    split
    · rename_i hnone
      rw [hfind] at hnone
      cases hnone
    · rename_i t1 hfind1
      have ht1 : t0 = t1 := by
        rw [hfind] at hfind1
        exact Option.some.inj hfind1
      subst ht1
      split
      · rename_i hdue
        rw [hmid]
        have hT' : timersFor
            { st with pending := st.pending.filter (fun u => u.id != tid), now := t0.due }
            m = [] := by
          rw [timersFor_pending_filter (fun u => u.id != tid) rfl m, hTeq]
          simp [htid]
        refine MsgInvP_retryMessage_self L
          { st with pending := st.pending.filter (fun u => u.id != tid), now := t0.due }
          t0.sessionName t0.topic m d ?_ hT' ?_ ?_
        · exact hnd
        · exact h2
        · intro msg hmm
          have hne : timersFor st m ≠ [] := by
            rw [hTeq]
            simp
          obtain ⟨l, ha, hb2, hc, he⟩ := h3 msg hmm hne
          exact ⟨l, ha, hb2, hc, he⟩
      · exact ⟨h1, h2, h3⟩
  · have hfire : ∀ tid t0, ev = .fire tid →
        st.pending.find? (fun u => u.id == tid) = some t0 → (t0.messageId == m) = false := by
      intro tid t0 he hf
      cases hb : (t0.messageId == m)
      · rfl
      · exact absurd ⟨tid, t0, he, hf, hb⟩ hfm
    obtain ⟨hms, htm, hcnt⟩ := step_effects st ev m d hev hfire
    exact MsgInvP_mono hms htm hcnt hP

end FastPort

namespace FastPort

/-- The publish of `m` itself establishes the post-publish invariant, given
duplicate-free subscriber snapshots, session retry ceilings bounded by `L`,
and a pre-publish state with no `m`-timer and no `m`-frame sent. -/
theorem MsgInvP_handlePublish (L : Nat) (st : BrokerState) (self : Nat)
    (topic data hash : String) (ts : Nat) (m : String) (d : Nat)
    (hg : SubsNodup st) (hb : SessBound L st) (hNP : MsgInvNP m d st) :
    MsgInvP L m d (handlePublish st self topic data hash ts m) := by
  obtain ⟨hT0, hC0⟩ := hNP
  unfold handlePublish
  split
  · exact MsgInvP_of_NP L m d st ⟨hT0, hC0⟩
  · split
    · refine MsgInvP_of_NP L m d _ ⟨?_, ?_⟩
      · rw [timersFor_eq_of_pending_eq (sendTo_pending st _ _) m]
        exact hT0
      · rw [msgCount_sendTo_nonmsg]
        · exact hC0
        · rfl
    · split
      · refine MsgInvP_of_NP L m d _ ⟨?_, ?_⟩
        · rw [timersFor_eq_of_pending_eq (sendTo_pending st _ _) m]
          exact hT0
        · rw [msgCount_sendTo_nonmsg]
          · exact hC0
          · rfl
      · split
        · refine MsgInvP_of_NP L m d _ ⟨?_, ?_⟩
          · rw [timersFor_eq_of_pending_eq (sendTo_pending st _ _) m]
            exact hT0
          · rw [msgCount_sendTo_nonmsg]
            · exact hC0
            · rfl
        · rename_i sess hs0 osess session hses hsusp
          try dsimp only
          set dests := (getSubscribers st sess topic).filter
            (fun c => c != self && connReadyState st c == 1) with hdests
          set st1 := sendAll st dests (.message topic data hash ts m none) with hst1
          set st2 := cacheMessage st1 sess topic m ⟨data, hash, ts, topic, "publish"⟩
            session with hst2
          set st3 := (if dests.length > 0 then scheduleRetry st2 sess topic m session
            else removeMessage st2 sess topic m) with hst3
          have hc1 : msgCount st1 m d ≤ 1 := by
            rw [hst1, msgCount_sendAll, hC0]
            have hlen : (dests.filter (fun x => x == d)).length ≤ 1 :=
              length_filter_beq_le_one (List.Nodup.filter _ (hg sess topic)) d
            split <;> omega
          have hp1 : st1.pending = st.pending := by rw [hst1, sendAll_pending]
          have hp2 : st2.pending = st.pending := by
            rw [hst2, cacheMessage_pending]
            exact hp1
          have hT2 : timersFor st2 m = [] := by
            rw [timersFor_eq_of_pending_eq hp2 m]
            exact hT0
          have hc2 : msgCount st2 m d ≤ 1 := by
            rw [msgCount_eq_of_sent_eq (show st2.sent = st1.sent by
              rw [hst2, cacheMessage_sent]) m d]
            exact hc1
          set cItem : CachedMessage :=
            { messageId := m, sessionName := sess, topic := topic, data := data,
              hash := hash, mtype := "publish", timestamp := st1.now, retryCount := 0,
              expiryTime :=
                match session.messageExpiryTime with
                | some t => if t = 0 then none else some (st1.now + t)
                | none => none,
              maxRetryLimit := some session.maxRetryLimit,
              retryInterval := some session.retryInterval } with hcitem
          have hmsg2 : alookup st2.messages m = some cItem := by
            rw [hst2, cacheMessage_messages, alookup_aset_self]
          have hexp2 : expiryHit st2.now cItem.expiryTime = false := by
            have hnow2 : st2.now = st1.now := by rw [hst2]; rfl
            rw [hnow2, hcitem]
            exact expiryHit_fresh_false st1.now session.messageExpiryTime
          have hlim2 : cItem.maxRetryLimit = some session.maxRetryLimit := by rw [hcitem]
          have hrc2 : cItem.retryCount = 0 := by rw [hcitem]
          have hlimL : session.maxRetryLimit ≤ L := hb sess session hses
          suffices hP3 : MsgInvP L m d st3 by
            refine MsgInvP_mono ?_ ?_ ?_ hP3
            · intro msg hmm
              rwa [sendTo_messages, fcmBlock_messages] at hmm
            · have hpf : (sendTo (fcmBlock st3 sess session topic m) self
                  (.publishResponse true (some m) (some dests.length) none)).pending =
                  st3.pending := by
                rw [sendTo_pending, fcmBlock_pending]
              rw [timersFor_eq_of_pending_eq hpf m]
            · rw [msgCount_sendTo_nonmsg]
              · rw [msgCount_eq_of_sent_eq (fcmBlock_sent _ _ _ _ _) m d]
              · rfl
          rw [hst3]
          split
          · by_cases hlz : session.maxRetryLimit = 0
            · rw [scheduleRetry_removes_at_limit st2 sess topic m session cItem
                session.maxRetryLimit hmsg2 hexp2 hlim2 (by rw [hlz])]
              refine ⟨?_, ?_, ?_⟩
              · rw [timersFor_removeMessage_of_nil st2 sess topic m m hT2]
                simp
              · rw [msgCount_eq_of_sent_eq (removeMessage_sent st2 sess topic m) m d]
                omega
              · intro msg hmm
                rw [removeMessage_messages, alookup_aerase_self] at hmm
                cases hmm
            · have hlt : cItem.retryCount < session.maxRetryLimit := by
                rw [hrc2]
                exact Nat.pos_of_ne_zero hlz
              obtain ⟨hm3, hp3, hs3⟩ := scheduleRetry_arm_parts st2 sess topic m session
                cItem session.maxRetryLimit hmsg2 hexp2 hlim2 hlt
              have hTS : timersFor (scheduleRetry st2 sess topic m session) m =
                  timersFor st2 m ++
                    [⟨st2.nextTimerId,
                      st2.now + jsOr cItem.retryInterval session.retryInterval,
                      sess, topic, m⟩] :=
                timersFor_pending_append_self _ hp3 m (beq_self_eq_true m)
              refine ⟨?_, ?_, ?_⟩
              · rw [hTS, hT2]
                simp
              · rw [msgCount_eq_of_sent_eq hs3 m d]
                omega
              · intro msg hmm hne
                rw [hm3, alookup_aset_self] at hmm
                have hmsg_eq : msg = { cItem with retryCount := cItem.retryCount + 1 } :=
                  (Option.some.inj hmm).symm
                subst hmsg_eq
                refine ⟨session.maxRetryLimit, ?_, hlimL, ?_, ?_⟩
                · show cItem.maxRetryLimit = some session.maxRetryLimit
                  exact hlim2
                · show cItem.retryCount + 1 ≤ session.maxRetryLimit
                  omega
                · rw [msgCount_eq_of_sent_eq hs3 m d]
                  show msgCount st2 m d ≤ cItem.retryCount + 1
                  omega
          · refine ⟨?_, ?_, ?_⟩
            · rw [timersFor_removeMessage_of_nil st2 sess topic m m hT2]
              simp
            · rw [msgCount_eq_of_sent_eq (removeMessage_sent st2 sess topic m) m d]
              omega
            · intro msg hmm
              rw [removeMessage_messages, alookup_aerase_self] at hmm
              cases hmm

theorem isPublishOf_shape (m : String) (ev : Event) (h : isPublishOf m ev = true) :
    ∃ self t dd hh ts, ev = .text self (.publish t dd hh ts m) := by
  cases ev with
  | text self f =>
    cases f with
    | publish t dd hh ts mid =>
      have hmid : mid = m := beq_iff_eq.mp h
      subst hmid
      exact ⟨self, t, dd, hh, ts, rfl⟩
    | init sn pw uid => simp [isPublishOf] at h
    | subscribe topic => simp [isPublishOf] at h
    | unsubscribe topic => simp [isPublishOf] at h
    | ack t mid => simp [isPublishOf] at h
    | initFile t fid => simp [isPublishOf] at h
    | endFile t fid => simp [isPublishOf] at h
    | registerFcmToken u e hh p => simp [isPublishOf] at h
    | unknown => simp [isPublishOf] at h
  | binary self b => simp [isPublishOf] at h
  | fire tid => simp [isPublishOf] at h
  | tick t => simp [isPublishOf] at h
  | close self => simp [isPublishOf] at h
  | adminCreate args fk => simp [isPublishOf] at h
  | adminDrop n p k => simp [isPublishOf] at h
  | adminSuspend n p k b => simp [isPublishOf] at h

theorem MsgInvP_run_nopub (L : Nat) (m : String) (d : Nat) :
    ∀ (evs : List Event) (st : BrokerState), SubsNodup st →
      (∀ ev ∈ evs, isPublishOf m ev = false) → MsgInvP L m d st →
      MsgInvP L m d (run st evs) := by
  intro evs
  induction evs with
  | nil => exact fun st _ _ hP => hP
  | cons ev rest ih =>
    intro st hg hall hP
    exact ih (step st ev) (SubsNodup_step st ev hg)
      (fun e he => hall e (List.mem_cons_of_mem ev he))
      (MsgInvP_step L st ev m d (hall ev (List.mem_cons_self ev rest)) hg hP)

/-- Along any trace with at most one publish of `m`, from a pre-publish state
with duplicate-free subscriber lists and all session ceilings at most `L`
(which every event also respects for the sessions it creates), every observer
receives at most `1 + L` message frames for `m`. -/
theorem msgCount_run_le (L : Nat) (m : String) (d : Nat) :
    ∀ (evs : List Event) (st : BrokerState), SubsNodup st → SessBound L st →
      MsgInvNP m d st → (∀ ev ∈ evs, eventLimitBounded L ev) →
      evs.countP (isPublishOf m) ≤ 1 →
      msgCount (run st evs) m d ≤ 1 + L := by
  intro evs
  induction evs with
  | nil =>
    intro st _ _ hNP _ _
    show msgCount st m d ≤ 1 + L
    have h := hNP.2
    omega
  | cons ev rest ih =>
    intro st hg hb hNP hlim hcount
    by_cases hpub : isPublishOf m ev = true
    · obtain ⟨self, t, dd, hh, ts, rfl⟩ := isPublishOf_shape m ev hpub
      have hP1 : MsgInvP L m d (step st (.text self (.publish t dd hh ts m))) :=
        MsgInvP_handlePublish L st self t dd hh ts m d hg hb hNP
      have hg1 := SubsNodup_step st (.text self (.publish t dd hh ts m)) hg
      have hrest : ∀ e ∈ rest, isPublishOf m e = false := by
        intro e he
        have h0 : rest.countP (isPublishOf m) = 0 := by
          rw [List.countP_cons, hpub, if_pos rfl] at hcount
          omega
        cases hbe : isPublishOf m e
        · rfl
        · exfalso
          have hpos : 0 < rest.countP (isPublishOf m) :=
            List.countP_pos_iff.mpr ⟨e, he, hbe⟩
          omega
      exact (MsgInvP_run_nopub L m d rest (step st (.text self (.publish t dd hh ts m)))
        hg1 hrest hP1).2.1
    · have hpf : isPublishOf m ev = false := by
        cases hx : isPublishOf m ev
        · rfl
        · exact absurd hx hpub
      refine ih (step st ev) (SubsNodup_step st ev hg)
        (SessBound_step L st ev hb (hlim ev (List.mem_cons_self ev rest)))
        (MsgInvNP_step st ev m d hpf hNP)
        (fun e he => hlim e (List.mem_cons_of_mem ev he)) ?_
      rw [List.countP_cons, hpf] at hcount
      simpa using hcount

end FastPort


namespace FastPort

/-! ## C3 — the retry ceiling by the captured limit -/

theorem SubsNodup_run (evs : List Event) :
    ∀ st : BrokerState, SubsNodup st → SubsNodup (run st evs) := by
  induction evs with
  | nil => exact fun st h => h
  | cons ev rest ih => exact fun st h => ih (step st ev) (SubsNodup_step st ev h)

/-- The publish of `m` establishes the post-publish invariant at exactly the
limit `l` stored on the publisher's session — the value `cacheMessage`
captures into the cached copy's `maxRetryLimit`. -/
theorem MsgInvP_handlePublish_captured (l : Nat) (st : BrokerState) (self : Nat)
    (topic data hash : String) (ts : Nat) (m : String) (d : Nat)
    (hg : SubsNodup st)
    (hcap : ∀ sess ses, connSession st self = some sess →
      alookup st.sessions sess = some ses → ses.maxRetryLimit = l)
    (hNP : MsgInvNP m d st) :
    MsgInvP l m d (handlePublish st self topic data hash ts m) := by
  obtain ⟨hT0, hC0⟩ := hNP
  unfold handlePublish
  split
  · exact MsgInvP_of_NP l m d st ⟨hT0, hC0⟩
  · split
    · refine MsgInvP_of_NP l m d _ ⟨?_, ?_⟩
      · rw [timersFor_eq_of_pending_eq (sendTo_pending st _ _) m]
        exact hT0
      · rw [msgCount_sendTo_nonmsg]
        · exact hC0
        · rfl
    · split
      · refine MsgInvP_of_NP l m d _ ⟨?_, ?_⟩
        · rw [timersFor_eq_of_pending_eq (sendTo_pending st _ _) m]
          exact hT0
        · rw [msgCount_sendTo_nonmsg]
          · exact hC0
          · rfl
      · split
        · refine MsgInvP_of_NP l m d _ ⟨?_, ?_⟩
          · rw [timersFor_eq_of_pending_eq (sendTo_pending st _ _) m]
            exact hT0
          · rw [msgCount_sendTo_nonmsg]
            · exact hC0
            · rfl
        · rename_i conn hgc x1 sess hcs osess session hses hsusp
          have hlimV : session.maxRetryLimit = l :=
            hcap sess session (by simp [connSession, hgc, hcs]) hses
          have hlimL : session.maxRetryLimit ≤ l := le_of_eq hlimV
          try dsimp only
          set dests := (getSubscribers st sess topic).filter
            (fun c => c != self && connReadyState st c == 1) with hdests
          set st1 := sendAll st dests (.message topic data hash ts m none) with hst1
          set st2 := cacheMessage st1 sess topic m ⟨data, hash, ts, topic, "publish"⟩
            session with hst2
          set st3 := (if dests.length > 0 then scheduleRetry st2 sess topic m session
            else removeMessage st2 sess topic m) with hst3
          have hc1 : msgCount st1 m d ≤ 1 := by
            rw [hst1, msgCount_sendAll, hC0]
            have hlen : (dests.filter (fun x => x == d)).length ≤ 1 :=
              length_filter_beq_le_one (List.Nodup.filter _ (hg sess topic)) d
            split <;> omega
          have hp1 : st1.pending = st.pending := by rw [hst1, sendAll_pending]
          have hp2 : st2.pending = st.pending := by
            rw [hst2, cacheMessage_pending]
            exact hp1
          have hT2 : timersFor st2 m = [] := by
            rw [timersFor_eq_of_pending_eq hp2 m]
            exact hT0
          have hc2 : msgCount st2 m d ≤ 1 := by
            rw [msgCount_eq_of_sent_eq (show st2.sent = st1.sent by
              rw [hst2, cacheMessage_sent]) m d]
            exact hc1
          set cItem : CachedMessage :=
            { messageId := m, sessionName := sess, topic := topic, data := data,
              hash := hash, mtype := "publish", timestamp := st1.now, retryCount := 0,
              expiryTime :=
                match session.messageExpiryTime with
                | some t => if t = 0 then none else some (st1.now + t)
                | none => none,
              maxRetryLimit := some session.maxRetryLimit,
              retryInterval := some session.retryInterval } with hcitem
          have hmsg2 : alookup st2.messages m = some cItem := by
            rw [hst2, cacheMessage_messages, alookup_aset_self]
          have hexp2 : expiryHit st2.now cItem.expiryTime = false := by
            have hnow2 : st2.now = st1.now := by rw [hst2]; rfl
            rw [hnow2, hcitem]
            exact expiryHit_fresh_false st1.now session.messageExpiryTime
          have hlim2 : cItem.maxRetryLimit = some session.maxRetryLimit := by rw [hcitem]
          have hrc2 : cItem.retryCount = 0 := by rw [hcitem]
          suffices hP3 : MsgInvP l m d st3 by
            refine MsgInvP_mono ?_ ?_ ?_ hP3
            · intro msg hmm
              rwa [sendTo_messages, fcmBlock_messages] at hmm
            · have hpf : (sendTo (fcmBlock st3 sess session topic m) self
                  (.publishResponse true (some m) (some dests.length) none)).pending =
                  st3.pending := by
                rw [sendTo_pending, fcmBlock_pending]
              rw [timersFor_eq_of_pending_eq hpf m]
            · rw [msgCount_sendTo_nonmsg]
              · rw [msgCount_eq_of_sent_eq (fcmBlock_sent _ _ _ _ _) m d]
              · rfl
          rw [hst3]
          split
          · by_cases hlz : session.maxRetryLimit = 0
            · rw [scheduleRetry_removes_at_limit st2 sess topic m session cItem
                session.maxRetryLimit hmsg2 hexp2 hlim2 (by rw [hlz])]
              refine ⟨?_, ?_, ?_⟩
              · rw [timersFor_removeMessage_of_nil st2 sess topic m m hT2]
                simp
              · rw [msgCount_eq_of_sent_eq (removeMessage_sent st2 sess topic m) m d]
                omega
              · intro msg hmm
                rw [removeMessage_messages, alookup_aerase_self] at hmm
                cases hmm
            · have hlt : cItem.retryCount < session.maxRetryLimit := by
                rw [hrc2]
                exact Nat.pos_of_ne_zero hlz
              obtain ⟨hm3, hp3, hs3⟩ := scheduleRetry_arm_parts st2 sess topic m session
                cItem session.maxRetryLimit hmsg2 hexp2 hlim2 hlt
              have hTS : timersFor (scheduleRetry st2 sess topic m session) m =
                  timersFor st2 m ++
                    [⟨st2.nextTimerId,
                      st2.now + jsOr cItem.retryInterval session.retryInterval,
                      sess, topic, m⟩] :=
                timersFor_pending_append_self _ hp3 m (beq_self_eq_true m)
              refine ⟨?_, ?_, ?_⟩
              · rw [hTS, hT2]
                simp
              · rw [msgCount_eq_of_sent_eq hs3 m d]
                omega
              · intro msg hmm hne
                rw [hm3, alookup_aset_self] at hmm
                have hmsg_eq : msg = { cItem with retryCount := cItem.retryCount + 1 } :=
                  (Option.some.inj hmm).symm
                subst hmsg_eq
                refine ⟨session.maxRetryLimit, ?_, hlimL, ?_, ?_⟩
                · show cItem.maxRetryLimit = some session.maxRetryLimit
                  exact hlim2
                · show cItem.retryCount + 1 ≤ session.maxRetryLimit
                  omega
                · rw [msgCount_eq_of_sent_eq hs3 m d]
                  show msgCount st2 m d ≤ cItem.retryCount + 1
                  omega
          · refine ⟨?_, ?_, ?_⟩
            · rw [timersFor_removeMessage_of_nil st2 sess topic m m hT2]
              simp
            · rw [msgCount_eq_of_sent_eq (removeMessage_sent st2 sess topic m) m d]
              omega
            · intro msg hmm
              rw [removeMessage_messages, alookup_aerase_self] at hmm
              cases hmm

/-- C3.  Retry ceiling by the captured limit.  (i) A publish of `m` issued
while the publisher's session stores `maxRetryLimit = l` — the value
`cacheMessage` captures into the cached copy — followed by any events that do
not publish `m` again (timer firings, acks, other publishes, closes, and even
admin calls that drop or re-create the session with a different limit), sends
any one subscriber at most `1 + l` `message` frames for `m`, starting from a
state with duplicate-free subscriber snapshots, no armed `m`-timer and no
`m`-frame sent: the ceiling is the message's own captured limit, regardless of
every other session's or any later limit.  (ii) Once `retryCount` has reached
the captured limit `l`, `scheduleRetry` removes the message from storage
instead of re-arming: no cache entry for the id remains and the pending-timer
list for it only shrinks. -/
theorem c3_retry_ceiling_and_removal :
    (∀ (l : Nat) (st : BrokerState) (self : Nat) (topic data hash : String) (ts : Nat)
      (m : String) (d : Nat) (evs : List Event),
      SubsNodup st → MsgInvNP m d st →
      (∀ sess ses, connSession st self = some sess →
        alookup st.sessions sess = some ses → ses.maxRetryLimit = l) →
      (∀ ev ∈ evs, isPublishOf m ev = false) →
      msgCount (run (handlePublish st self topic data hash ts m) evs) m d ≤ 1 + l) ∧
    (∀ (st : BrokerState) (s t mid : String) (ses : Session) (msg : CachedMessage)
      (l : Nat), alookup st.messages mid = some msg → msg.maxRetryLimit = some l →
      l ≤ msg.retryCount →
      alookup (scheduleRetry st s t mid ses).messages mid = none ∧
      (timersFor (scheduleRetry st s t mid ses) mid).Sublist (timersFor st mid)) := by
  constructor
  · intro l st self topic data hash ts m d evs hg hNP hcap hall
    have hP1 : MsgInvP l m d (handlePublish st self topic data hash ts m) :=
      MsgInvP_handlePublish_captured l st self topic data hash ts m d hg hcap hNP
    have hg1 : SubsNodup (handlePublish st self topic data hash ts m) :=
      SubsNodup_step st (.text self (.publish topic data hash ts m)) hg
    exact (MsgInvP_run_nopub l m d evs (handlePublish st self topic data hash ts m)
      hg1 hall hP1).2.1
  · intro st s t mid ses msg l hm hlim hge
    by_cases hexp : expiryHit st.now msg.expiryTime = true
    · rw [scheduleRetry_expired st s t mid ses msg hm hexp]
      exact ⟨by rw [removeMessage_messages, alookup_aerase_self],
        removeMessage_timersFor_sublist st s t mid mid⟩
    · have hexpf : expiryHit st.now msg.expiryTime = false := by
        cases hx : expiryHit st.now msg.expiryTime
        · rfl
        · exact absurd hx hexp
      rw [scheduleRetry_removes_at_limit st s t mid ses msg l hm hexpf hlim hge]
      exact ⟨by rw [removeMessage_messages, alookup_aerase_self],
        removeMessage_timersFor_sublist st s t mid mid⟩

/-- C3 witness setup: create session `s` with `maxRetryLimit` explicitly 2,
authenticate publisher 0 and subscriber 1, subscribe 1 to `t`. -/
def c3SetupTrace : List Event :=
  [ .adminCreate ⟨"s", "pw", none, some 2, none, none, false⟩ "k",
    .text 0 (.init "s" "pw" none),
    .text 1 (.init "s" "pw" none),
    .text 1 (.subscribe "t") ]

def c3WitPre : BrokerState := run (initialState [0, 1]) c3SetupTrace

def c3WitSession : Session := ⟨"s", "pw", "k", 5000, 2, none, none, false, false⟩

/-- A cached message whose `retryCount` has reached its captured limit 2. -/
def c3WitMsg : CachedMessage :=
  ⟨"m3", "s", "t", "d", "h", "publish", 0, 2, none, some 2, some 100⟩

def c3WitState : BrokerState :=
  { sessions := [("s", c3WitSession)], messages := [("m3", c3WitMsg)], retryTimers := [],
    pending := [], nextTimerId := 0, activeSubscribers := [], userConnections := [],
    conns := [], deviceTokens := [], now := 0, sent := [], fcmPushes := [] }

theorem c3_retry_ceiling_and_removal_witness :
    msgCount (run (handlePublish c3WitPre 0 "t" "d" "h" 0 "m3") [.fire 0]) "m3" 1 ≤ 1 + 2 ∧
    (alookup (scheduleRetry c3WitState "s" "t" "m3" c3WitSession).messages "m3" = none ∧
      (timersFor (scheduleRetry c3WitState "s" "t" "m3" c3WitSession) "m3").Sublist
        (timersFor c3WitState "m3")) := by
  constructor
  · refine c3_retry_ceiling_and_removal.1 2 c3WitPre 0 "t" "d" "h" 0 "m3" 1 [.fire 0]
      ?_ ?_ ?_ ?_
    · refine SubsNodup_run c3SetupTrace (initialState [0, 1]) ?_
      intro s t
      simp [getSubscribers, initialState, alookup]
    · exact ⟨by decide, by decide⟩
    · intro sess ses h1 h2
      have hc : connSession c3WitPre 0 = some "s" := by decide
      rw [hc] at h1
      have h1x : "s" = sess := Option.some.inj h1
      subst h1x
      have hs : alookup c3WitPre.sessions "s" = some c3WitSession := by decide
      rw [hs] at h2
      have h2x : c3WitSession = ses := Option.some.inj h2
      subst h2x
      decide
    · intro ev hev
      simp only [List.mem_singleton] at hev
      subst hev
      decide
  · exact c3_retry_ceiling_and_removal.2 c3WitState "s" "t" "m3" c3WitSession c3WitMsg 2
      rfl rfl (by decide)

end FastPort
